import Mathlib

/-!
# piko: the `server` command (`cli/server/command.go`) and the routing core it drives

The first part embeds `cli/server/command.go`: the `Run` handler that `NewCommand`
installs on the cobra command, and `run`, which builds the server and supervises it
with a two-actor run group (a termination-signal actor and the `server.Run` actor).

Collaborators whose code lives in other packages (`pikoconfig.Load`,
`config.Config.Validate`, `log.NewLogger`, `server.NewServer`, `server.Run`) are taken
as parameters or as environment moves.  The handler is sequential and is embedded as a
function producing the trace of collaborator calls; the run group is concurrent and is
embedded as a transition system whose moves are the atomic steps of the goroutines.

The second part models the endpoint registry, the endpoint table and the dead-node
transition of the membership protocol, which the design document specifies.
-/

namespace Piko

/-! ## Part 1: `cli/server/command.go` -/

/-- A Go `error` value, represented by its `Error()` message. -/
abbrev GoError := String

/-- The two signals registered with `signal.Notify` (line 123). -/
inductive Signal
  | SIGINT
  | SIGTERM
  deriving DecidableEq, Repr

/-- The `String()` rendering of a signal, logged at line 129. -/
def Signal.name : Signal → String
  | .SIGINT => "interrupt"
  | .SIGTERM => "terminated"

/-- The two cancellable contexts created in `run` (lines 121 and 139). -/
inductive Ctx
  | signalCtx
  | runCtx
  deriving DecidableEq, Repr

/-- The caller-facing operations of the server runtime. -/
inductive ServerOp
  | start
  | run (ctx : Ctx)
  | shutdown
  deriving DecidableEq, Repr

/-- Observable steps of the command: calls to collaborators, output and process exit. -/
inductive Event (Config Logger Server : Type)
  | load (path : String) (conf : Config) (expandEnv : Bool)
  | validate (conf : Config)
  | newLogger (level : String) (subsystems : List String)
  | newServer (conf : Config) (logger : Logger)
  | printf (msg : String)
  | loggerError (logger : Logger) (msg : String) (err : GoError)
  | loggerInfo (logger : Logger) (msg : String) (signal : String)
  | signalNotify (sigs : List Signal)
  | serverCall (srv : Server) (op : ServerOp)
  | exit (code : Nat)
  deriving DecidableEq, Repr

/-- The collaborators called by the handler and by `run`.  `load` and `validate` receive
the config struct by reference, so they return its state after the call together with
the error result. -/
structure Collaborators (Config Logger Server : Type) where
  load : String → Config → Bool → Config × Option GoError
  validate : Config → Config × Option GoError
  logLevel : Config → String
  logSubsystems : Config → List String
  newLogger : String → List String → Except GoError Logger
  newServer : Config → Logger → Except GoError Server

/-! ### The run group of `run` (lines 118-146) -/

/-- Control state of the termination actor (lines 124-134). -/
inductive SigActor
  | waiting
  | logging (sig : Signal)
  | exited
  deriving DecidableEq, Repr

/-- Control state of the server actor (lines 140-141). -/
inductive RunActor
  | spawned
  | running
  | exited
  deriving DecidableEq, Repr

/-- Control state of `group.Run()` (line 146).  `group` is a `run.Group` of the run-group
library `github.com/oklog/run`, whose `Run` starts every actor in its own goroutine,
waits for the first actor to exit, calls every interrupt function in the order the
actors were added, waits for the remaining actors, and returns the first result. -/
inductive GroupMain
  | waitFirst
  | interrupting (first : Option GoError) (next : Nat)
  | waitRest (first : Option GoError)
  | returned (first : Option GoError)
  deriving DecidableEq, Repr

/-- State of the run group while `group.Run()` executes. -/
structure GState (Config Logger Server : Type) where
  signalCh : Option Signal
  signalCtxDone : Bool
  runCtxDone : Bool
  sigActor : SigActor
  runActor : RunActor
  errors : List (Option GoError)
  main : GroupMain
  calls : List (Event Config Logger Server)

/-- Atomic moves of the run group.  `deliver` and `serverRunReturn` are moves of the
environment (the operating system, and `server.Run` returning a value); the others are
steps of the program's goroutines. -/
inductive Action
  -- the runtime relays a registered signal to `signalCh` (line 123)
  | deliver (sig : Signal)
  -- the call `server.Run(runCtx)` returns `result` and the server actor exits (line 141)
  | serverRunReturn (result : Option GoError)
  -- the server actor starts and calls `server.Run(runCtx)` (line 141)
  | runStart
  -- the termination actor takes `case sig := <-signalCh` (line 126)
  | sigRecv
  -- the termination actor logs the signal and returns nil (lines 127-131)
  | sigLogReturn
  -- the termination actor takes `case <-signalCtx.Done()` and returns nil (lines 132-133)
  | sigCtxDone
  -- `group.Run()` receives the result of the first actor to exit
  | mainRecvFirst
  -- `group.Run()` calls the next interrupt function (lines 135-137, then 142-144)
  | mainInterrupt
  -- `group.Run()` receives the result of the other actor and returns
  | mainRecvRest
  deriving DecidableEq, Repr

/-- The steps taken by the program itself. -/
def Action.isProgram : Action → Bool
  | .deliver _ => false
  | .serverRunReturn _ => false
  | _ => true

/-- State at the call of `group.Run()`: both actors added, nothing delivered yet. -/
def groupInit (Config : Type) {Logger Server : Type} : GState Config Logger Server :=
  { signalCh := none, signalCtxDone := false, runCtxDone := false,
    sigActor := .waiting, runActor := .spawned, errors := [], main := .waitFirst,
    calls := [] }

/-- Whether a move can be taken in a state. -/
def enabled {Config Logger Server : Type} (s : GState Config Logger Server) :
    Action → Bool
  | .deliver _ => true
  | .serverRunReturn _ =>
    match s.runActor with
    | .running => true
    | _ => false
  | .runStart =>
    match s.runActor with
    | .spawned => true
    | _ => false
  | .sigRecv =>
    match s.sigActor, s.signalCh with
    | .waiting, some _ => true
    | _, _ => false
  | .sigLogReturn =>
    match s.sigActor with
    | .logging _ => true
    | _ => false
  | .sigCtxDone =>
    match s.sigActor with
    | .waiting => s.signalCtxDone
    | _ => false
  | .mainRecvFirst =>
    match s.main, s.errors with
    | .waitFirst, _ :: _ => true
    | _, _ => false
  | .mainInterrupt =>
    match s.main with
    | .interrupting _ _ => true
    | _ => false
  | .mainRecvRest =>
    match s.main, s.errors with
    | .waitRest _, _ :: _ => true
    | _, _ => false

/-- Effect of a move; a move that is not enabled leaves the state unchanged. -/
def step {Config Logger Server : Type} (srv : Server) (logger : Logger)
    (s : GState Config Logger Server) (a : Action) : GState Config Logger Server :=
  if enabled s a then
    match a with
    | .deliver sig =>
      -- signal.Notify never blocks: a signal arriving when the buffer is full is dropped
      match s.signalCh with
      | none => { s with signalCh := some sig }
      | some _ => s
    | .serverRunReturn result =>
      { s with runActor := .exited, errors := s.errors ++ [result] }
    | .runStart =>
      { s with runActor := .running,
               calls := s.calls ++ [.serverCall srv (.run .runCtx)] }
    | .sigRecv =>
      match s.signalCh with
      | some sig => { s with signalCh := none, sigActor := .logging sig }
      | none => s
    | .sigLogReturn =>
      match s.sigActor with
      | .logging sig =>
        { s with sigActor := .exited, errors := s.errors ++ [none],
                 calls := s.calls ++ [.loggerInfo logger "received shutdown signal" sig.name] }
      | _ => s
    | .sigCtxDone => { s with sigActor := .exited, errors := s.errors ++ [none] }
    | .mainRecvFirst =>
      match s.errors with
      | e :: rest => { s with errors := rest, main := .interrupting e 0 }
      | [] => s
    | .mainInterrupt =>
      match s.main with
      -- `signalCancel()` (line 136), then `runCancel()` (line 143)
      | .interrupting e 0 => { s with signalCtxDone := true, main := .interrupting e 1 }
      | .interrupting e _ => { s with runCtxDone := true, main := .waitRest e }
      | _ => s
    | .mainRecvRest =>
      match s.main, s.errors with
      | .waitRest e, _ :: rest => { s with errors := rest, main := .returned e }
      | _, _ => s
  else s

/-- Run a schedule of moves from a state. -/
def exec {Config Logger Server : Type} (srv : Server) (logger : Logger)
    (s : GState Config Logger Server) (sched : List Action) : GState Config Logger Server :=
  sched.foldl (step srv logger) s

/-- Result of a call that may still be in progress when the schedule ends. -/
inductive RunResult
  | returned (err : Option GoError)
  | blocked
  deriving DecidableEq, Repr

/-- The function `run` (lines 112-147).  `sched` is the interleaving of the run group's
goroutines with the environment. -/
def run {Config Logger Server : Type} (c : Collaborators Config Logger Server)
    (conf : Config) (logger : Logger) (sched : List Action) :
    List (Event Config Logger Server) × RunResult :=
  match c.newServer conf logger with
  | .error err => ([.newServer conf logger], .returned (some ("server: " ++ err)))
  | .ok srv =>
    let s := exec srv logger (groupInit Config) sched
    ([.newServer conf logger, .signalNotify [.SIGINT, .SIGTERM]] ++ s.calls,
      match s.main with
      | .returned e => .returned e
      | _ => .blocked)

/-- How an invocation of the handler ends. -/
inductive Outcome
  | exited (code : Nat)
  | returned
  | blocked
  deriving DecidableEq, Repr

/-- The `Run` handler installed by `NewCommand` (lines 84-107).  `configPath` and
`configExpandEnv` are the values of `--config.path` and `--config.expand-env`, `conf` is
the command's config struct after flag parsing. -/
def cmdRun {Config Logger Server : Type} (c : Collaborators Config Logger Server)
    (configPath : String) (configExpandEnv : Bool) (conf : Config) (sched : List Action) :
    List (Event Config Logger Server) × Outcome :=
  let loaded : List (Event Config Logger Server) × Config × Option GoError :=
    if configPath ≠ "" then
      ([.load configPath conf configExpandEnv],
        (c.load configPath conf configExpandEnv).1,
        (c.load configPath conf configExpandEnv).2)
    else ([], conf, none)
  match loaded with
  | (tr, _, some err) =>
    (tr ++ [.printf ("load config: " ++ configPath ++ ": " ++ err ++ "\n"), .exit 1],
      .exited 1)
  | (tr, conf1, none) =>
    match c.validate conf1 with
    | (_, some err) =>
      (tr ++ [.validate conf1, .printf ("invalid config: " ++ err ++ "\n"), .exit 1],
        .exited 1)
    | (conf2, none) =>
      match c.newLogger (c.logLevel conf2) (c.logSubsystems conf2) with
      | .error err =>
        (tr ++ [.validate conf1, .newLogger (c.logLevel conf2) (c.logSubsystems conf2),
                .printf ("failed to setup logger: " ++ err ++ "\n"), .exit 1],
          .exited 1)
      | .ok logger =>
        let pre : List (Event Config Logger Server) :=
          tr ++ [.validate conf1, .newLogger (c.logLevel conf2) (c.logSubsystems conf2)]
        match run c conf2 logger sched with
        | (rtr, .returned (some err)) =>
          (pre ++ rtr ++ [.loggerError logger "failed to run server" err, .exit 1],
            .exited 1)
        | (rtr, .returned none) => (pre ++ rtr, .returned)
        | (rtr, .blocked) => (pre ++ rtr, .blocked)

/-! ### Auxiliary notions used to state properties of the handler -/

/-- The config struct as the handler holds it after the loading step (lines 85-90). -/
def confAfterLoad {Config Logger Server : Type} (c : Collaborators Config Logger Server)
    (configPath : String) (configExpandEnv : Bool) (conf : Config) : Config :=
  if configPath = "" then conf else (c.load configPath conf configExpandEnv).1

/-- The error result of the loading step: nil when no path is given. -/
def loadError {Config Logger Server : Type} (c : Collaborators Config Logger Server)
    (configPath : String) (configExpandEnv : Bool) (conf : Config) : Option GoError :=
  if configPath = "" then none else (c.load configPath conf configExpandEnv).2

/-- The calls made by the loading step. -/
def loadTrace {Config Logger Server : Type} (configPath : String) (configExpandEnv : Bool)
    (conf : Config) : List (Event Config Logger Server) :=
  if configPath = "" then [] else [.load configPath conf configExpandEnv]

/-! ### Auxiliary notions used to state properties of the run group -/

/-- Events that are calls to `pikoconfig.Load`. -/
def Event.isLoad {Config Logger Server : Type} : Event Config Logger Server → Bool
  | .load _ _ _ => true
  | _ => false

/-- Events that are calls to `server.NewServer`. -/
def Event.isNewServer {Config Logger Server : Type} : Event Config Logger Server → Bool
  | .newServer _ _ => true
  | _ => false

/-- Events that are calls of an operation on a server. -/
def Event.isServerCall {Config Logger Server : Type} : Event Config Logger Server → Bool
  | .serverCall _ _ => true
  | _ => false

/-- Events that are calls to `os.Exit`. -/
def Event.isExit {Config Logger Server : Type} : Event Config Logger Server → Bool
  | .exit _ => true
  | _ => false

/-- Number of actors that have exited. -/
def exitedCount {Config Logger Server : Type} (s : GState Config Logger Server) : Nat :=
  (if s.sigActor = .exited then 1 else 0) + (if s.runActor = .exited then 1 else 0)

/-- Invariant of the states reachable from `groupInit`, first part: the results not yet
consumed by `group.Run()` are those of the exited actors, and each context is cancelled
exactly when `group.Run()` has passed the matching interrupt call. -/
def MainInv {Config Logger Server : Type} (s : GState Config Logger Server) : Prop :=
  match s.main with
  | .waitFirst =>
    s.errors.length = exitedCount s ∧ s.signalCtxDone = false ∧ s.runCtxDone = false
  | .interrupting _ k =>
    s.errors.length + 1 = exitedCount s ∧ s.runCtxDone = false ∧
      (s.signalCtxDone = true ↔ k ≠ 0)
  | .waitRest _ =>
    s.errors.length + 1 = exitedCount s ∧ s.signalCtxDone = true ∧ s.runCtxDone = true
  | .returned _ =>
    s.errors.length + 2 = exitedCount s ∧ s.signalCtxDone = true ∧ s.runCtxDone = true

/-- Invariant of the states reachable from `groupInit`, second part: `server.Run` has
been called exactly once as soon as the server actor has started, and the group makes
no call other than `server.Run` and `logger.Info`. -/
def CallsInv {Config Logger Server : Type} (srv : Server)
    (s : GState Config Logger Server) : Prop :=
  s.calls.filter Event.isServerCall =
    (if s.runActor = .spawned then [] else [Event.serverCall srv (.run .runCtx)]) ∧
  (∀ ev ∈ s.calls, ev.isLoad = false ∧ ev.isNewServer = false ∧ ev.isExit = false)

/-- Whether `group.Run()` has called both interrupt functions. -/
def GroupMain.interruptsInvoked : GroupMain → Bool
  | .waitRest _ => true
  | .returned _ => true
  | _ => false

/-- The situation the termination handler exists to bring about: the termination actor
has returned, the interrupt functions have been called, and the context given to
`server.Run` is cancelled. -/
def shutdownReached {Config Logger Server : Type} (s : GState Config Logger Server) :
    Bool :=
  s.sigActor == .exited && s.main.interruptsInvoked && s.signalCtxDone && s.runCtxDone

/-- Upper bound on the number of program steps that can still be taken. -/
def stepsLeft {Config Logger Server : Type} (s : GState Config Logger Server) : Nat :=
  (match s.sigActor with
    | .waiting => 2
    | .logging _ => 1
    | .exited => 0) +
  (match s.runActor with
    | .spawned => 1
    | _ => 0) +
  (match s.main with
    | .waitFirst => 4
    | .interrupting _ 0 => 3
    | .interrupting _ _ => 2
    | .waitRest _ => 1
    | .returned _ => 0)

/-- The program's moves. -/
def programActions : List Action :=
  [.runStart, .sigRecv, .sigLogReturn, .sigCtxDone, .mainRecvFirst, .mainInterrupt,
   .mainRecvRest]

/-- A scheduler of the program's goroutines: in every state where a step of the program
is enabled it picks one of them. -/
def Schedules {Config Logger Server : Type}
    (pick : GState Config Logger Server → Action) : Prop :=
  ∀ s, (∃ a : Action, a.isProgram = true ∧ enabled s a = true) →
    (pick s).isProgram = true ∧ enabled s (pick s) = true

/-- Let the program take `n` steps under a scheduler, with no move of the environment. -/
def runProgram {Config Logger Server : Type} (srv : Server) (logger : Logger)
    (pick : GState Config Logger Server → Action) :
    Nat → GState Config Logger Server → GState Config Logger Server
  | 0, s => s
  | n + 1, s => runProgram srv logger pick n (step srv logger s (pick s))

/-- The scheduler that picks the first enabled move of `programActions`. -/
def firstEnabled {Config Logger Server : Type} (s : GState Config Logger Server) : Action :=
  (programActions.find? (enabled s)).getD .runStart

/-- The result an actor hands to the group when the move makes that actor exit. -/
def exitValue {Config Logger Server : Type} (s : GState Config Logger Server)
    (a : Action) : Option (Option GoError) :=
  if enabled s a then
    match a with
    | .serverRunReturn result => some result
    | .sigLogReturn => some none
    | .sigCtxDone => some none
    | _ => none
  else none

/-- The first move of a schedule that makes an actor exit. -/
def firstExit {Config Logger Server : Type} (srv : Server) (logger : Logger) :
    GState Config Logger Server → List Action → Option Action
  | _, [] => none
  | s, a :: rest =>
    if (exitValue s a).isSome then some a else firstExit srv logger (step srv logger s a) rest

/-- The earlier of two optional first exits. -/
def firstOr (fe next : Option Action) : Option Action :=
  match fe with
  | some x => some x
  | none => next

/-- An exit move `a` handing the value `v` to the group that can be the first exit of a
schedule: `server.Run` returning `v`, or the termination actor returning nil after it
received a signal. -/
def okFirst (a : Action) (v : Option GoError) : Prop :=
  a = .serverRunReturn v ∨ (a = .sigLogReturn ∧ v = none)

/-- Invariant relating a reachable state to the first exit `fe` of the schedule that led
to it: while `group.Run()` waits for the first result, the head of the result queue is
the value of the first exit; afterwards the value it holds is that value. -/
def FirstInv {Config Logger Server : Type} (s : GState Config Logger Server)
    (fe : Option Action) : Prop :=
  match s.main with
  | .waitFirst =>
    match fe with
    | none => s.errors = []
    | some a => ∃ v, okFirst a v ∧ s.errors.head? = some v
  | .interrupting e _ => ∃ a, fe = some a ∧ okFirst a e
  | .waitRest e => ∃ a, fe = some a ∧ okFirst a e
  | .returned e => ∃ a, fe = some a ∧ okFirst a e

/-! ## Part 2: the routing core, modelled from the design document -/

/-- Stable name of an endpoint. -/
abbrev EndpointId := String

/-- Identifier of a cluster node. -/
abbrev NodeId := String

/-- Handle of a local upstream connection. -/
abbrev ConnHandle := Nat

/-- Modelled from the spec: the `Endpoint` record of the data model (section 3), whose
declaration is not part of the available sources. -/
structure Endpoint where
  id : EndpointId
  owner : NodeId
  incarnation : Nat
  lastHeartbeat : Nat
  deriving DecidableEq, Repr

/-- Modelled from the spec: the `EndpointTable` (section 3), a mapping from endpoint id to
`Endpoint`; its declaration is not part of the available sources. -/
abbrev EndpointTable := EndpointId → Option Endpoint

/-- The table with no entry. -/
def EndpointTable.empty : EndpointTable := fun _ => none

/-- Modelled from the spec: the apply-delta operation of the membership protocol (sections
3, 4.4 and 9), which is not part of the available sources.  A claim is accepted when the
table has no entry for its id or the entry has a strictly lower incarnation; otherwise
the claim is stale and is dropped. -/
def applyDelta (t : EndpointTable) (claim : Endpoint) : EndpointTable :=
  match t claim.id with
  | none => fun k => if k = claim.id then some claim else t k
  | some cur =>
    if cur.incarnation < claim.incarnation then
      fun k => if k = claim.id then some claim else t k
    else t

/-- Modelled from the spec: the Endpoint Registry of one node (section 4.3), which is not
part of the available sources: the local table from endpoint id to connection handle and
the counter from which incarnations are minted. -/
structure Registry where
  conns : EndpointId → Option ConnHandle
  nextIncarnation : Nat

/-- The registry of a node on which nothing was registered. -/
def Registry.empty : Registry := { conns := fun _ => none, nextIncarnation := 0 }

/-- Modelled from the spec: `registerLocal(endpointId, connection) -> incarnation`
(section 4.3), not part of the available sources.  It always succeeds, the last
registration for a name wins, and a fresh incarnation is returned. -/
def registerLocal (r : Registry) (id : EndpointId) (conn : ConnHandle) : Registry × Nat :=
  ({ conns := fun k => if k = id then some conn else r.conns k,
     nextIncarnation := r.nextIncarnation + 1 }, r.nextIncarnation + 1)

/-- Modelled from the spec: `deregisterLocal(endpointId)` (section 4.3), not part of the
available sources. -/
def deregisterLocal (r : Registry) (id : EndpointId) : Registry :=
  { r with conns := fun k => if k = id then none else r.conns k }

/-- Modelled from the spec: `lookupLocal(endpointId) -> connectionHandle | absent`
(section 4.3), not part of the available sources. -/
def lookupLocal (r : Registry) (id : EndpointId) : Option ConnHandle :=
  r.conns id

/-- An operation on the registry. -/
inductive RegistryOp
  | register (id : EndpointId) (conn : ConnHandle)
  | deregister (id : EndpointId)
  deriving DecidableEq, Repr

/-- The endpoint id an operation acts on. -/
def RegistryOp.id : RegistryOp → EndpointId
  | .register id _ => id
  | .deregister id => id

/-- Apply one operation to the registry. -/
def Registry.apply (r : Registry) : RegistryOp → Registry
  | .register id conn => (registerLocal r id conn).1
  | .deregister id => deregisterLocal r id

/-- Apply a sequence of operations, oldest first. -/
def Registry.applyAll (r : Registry) (ops : List RegistryOp) : Registry :=
  ops.foldl Registry.apply r

/-- What the last action on an endpoint id says: the connection of the last operation on
that id if that operation is a register, absent if it is a deregister or if there is no
operation on that id. -/
def lastAction (ops : List RegistryOp) (id : EndpointId) : Option ConnHandle :=
  match ops.reverse.find? (fun op => op.id == id) with
  | some (.register _ conn) => some conn
  | _ => none

/-- Modelled from the spec: status of a cluster node (section 3). -/
inductive NodeStatus
  | joining
  | alive
  | suspect
  | dead
  | left
  deriving DecidableEq, Repr

/-- Modelled from the spec: the `ClusterNode` record (section 3), whose declaration is not
part of the available sources. -/
structure ClusterNode where
  id : NodeId
  address : String
  status : NodeStatus
  incarnation : Nat
  lastSeen : Nat
  deriving DecidableEq, Repr

/-- Modelled from the spec: a gossip message (section 6). -/
structure GossipMessage where
  sender : NodeId
  senderIncarnation : Nat
  isAck : Bool
  memberDeltas : List ClusterNode
  endpointDeltas : List Endpoint
  deriving DecidableEq, Repr

/-- Modelled from the spec: the state the membership protocol keeps on one node (sections
3 and 4.4), not part of the available sources: the node table and the local copy of the
endpoint table. -/
structure Membership where
  nodes : NodeId → Option ClusterNode
  table : EndpointTable

/-- Modelled from the spec: the transition of a node to `dead` (sections 3 and 4.4), not
part of the available sources.  The node's status becomes `dead` and every endpoint whose
current owner is that node is removed from the local table.  The second component is the
list of messages the transition sends. -/
def markDead (m : Membership) (a : NodeId) : Membership × List GossipMessage :=
  ({ nodes := fun k =>
       if k = a then (m.nodes k).map (fun n => { n with status := .dead }) else m.nodes k,
     table := fun k => (m.table k).filter (fun e => e.owner ≠ a) }, [])

/-! ### Concrete collaborators used to exercise the definitions -/

/-- Collaborators that all succeed: the logger is `7`, the server is `9`. -/
def demo : Collaborators Nat Nat Nat :=
  { load := fun _ conf _ => (conf + 1, none),
    validate := fun conf => (conf, none),
    logLevel := fun _ => "info",
    logSubsystems := fun _ => [],
    newLogger := fun _ _ => .ok 7,
    newServer := fun _ _ => .ok 9 }

/-- Collaborators whose config validation fails. -/
def demoInvalid : Collaborators Nat Nat Nat :=
  { demo with validate := fun conf => (conf, some "missing bind address") }

/-- A table in which `svc-a` is owned by `node-3` with incarnation 9. -/
def tableWithNewerClaim : EndpointTable :=
  applyDelta EndpointTable.empty
    { id := "svc-a", owner := "node-3", incarnation := 9, lastHeartbeat := 0 }

/-- A claim of `svc-a` by `node-1` with incarnation 1. -/
def claimLow : Endpoint :=
  { id := "svc-a", owner := "node-1", incarnation := 1, lastHeartbeat := 0 }

/-- A claim of `svc-a` by `node-2` with incarnation 2. -/
def claimHigh : Endpoint :=
  { id := "svc-a", owner := "node-2", incarnation := 2, lastHeartbeat := 0 }

/-- A membership state with two endpoints, one owned by `node-1`, one by `node-2`. -/
def demoMembership : Membership :=
  { nodes := fun k =>
      if k = "node-1" then
        some { id := "node-1", address := "10.0.0.1", status := .suspect, incarnation := 1,
               lastSeen := 0 }
      else none,
    table := applyDelta (applyDelta EndpointTable.empty claimLow)
      { id := "svc-b", owner := "node-2", incarnation := 1, lastHeartbeat := 0 } }

/-- A graceful stop: a SIGTERM arrives while the server serves, the termination actor
returns, the group interrupts both actors, `server.Run` returns nil. -/
def gracefulStop : List Action :=
  [.runStart, .deliver .SIGTERM, .sigRecv, .sigLogReturn, .mainRecvFirst, .mainInterrupt,
   .mainInterrupt, .serverRunReturn none, .mainRecvRest]

/-- A race: the termination actor has received a SIGTERM and is logging it when
`server.Run` fails on its own, so the server actor is the first to exit. -/
def signalRace : List Action :=
  [.runStart, .deliver .SIGTERM, .sigRecv, .serverRunReturn (some "listener closed"),
   .mainRecvFirst, .mainInterrupt, .mainInterrupt, .sigLogReturn, .mainRecvRest]

/-! ## Theorems about the run group -/

theorem mainInv_step {Config Logger Server : Type} (srv : Server) (logger : Logger)
    (s : GState Config Logger Server) (a : Action) (h : MainInv s) :
    MainInv (step srv logger s a) := by
  obtain ⟨ch, sd, rd, sa, ra, errs, m, calls⟩ := s
  cases a with
  | deliver sig =>
    cases ch <;> simpa [step, enabled, MainInv, exitedCount] using h
  | serverRunReturn r =>
    cases ra <;> cases m <;> cases sa <;>
      simp [step, enabled, MainInv, exitedCount] at h ⊢ <;> simp [h]
  | runStart =>
    cases ra <;> cases m <;> cases sa <;>
      simp [step, enabled, MainInv, exitedCount] at h ⊢ <;> simp [h]
  | sigRecv =>
    cases sa <;> cases ch <;> cases m <;> cases ra <;>
      simp [step, enabled, MainInv, exitedCount] at h ⊢ <;> simp [h]
  | sigLogReturn =>
    cases sa <;> cases m <;> cases ra <;>
      simp [step, enabled, MainInv, exitedCount] at h ⊢ <;> simp [h]
  | sigCtxDone =>
    cases sa <;> cases m <;> cases sd <;> cases ra <;>
      simp [step, enabled, MainInv, exitedCount] at h ⊢ <;> simp [h]
  | mainRecvFirst =>
    cases errs <;> cases m <;> cases sa <;> cases ra <;>
      simp [step, enabled, MainInv, exitedCount] at h ⊢ <;> simp [h]
  | mainInterrupt =>
    cases m with
    | interrupting e k =>
      cases k <;> cases sa <;> cases ra <;>
        simp [step, enabled, MainInv, exitedCount] at h ⊢ <;> simp [h]
    | _ => simpa [step, enabled, MainInv, exitedCount] using h
  | mainRecvRest =>
    cases errs <;> cases m <;> cases sa <;> cases ra <;>
      simp [step, enabled, MainInv, exitedCount] at h ⊢ <;> simp [h]

theorem callsInv_step {Config Logger Server : Type} (srv : Server) (logger : Logger)
    (s : GState Config Logger Server) (a : Action) (h : CallsInv srv s) :
    CallsInv srv (step srv logger s a) := by
  obtain ⟨ch, sd, rd, sa, ra, errs, m, calls⟩ := s
  obtain ⟨h1, h2⟩ := h
  simp only at h1 h2
  cases a with
  | deliver sig =>
    cases ch <;> exact ⟨by simpa [step, enabled] using h1, by simpa [step, enabled] using h2⟩
  | serverRunReturn r =>
    cases ra <;> simp [step, enabled, CallsInv] at h1 ⊢ <;> exact ⟨h1, h2⟩
  | runStart =>
    cases ra <;> simp [step, enabled, CallsInv, List.filter_append, Event.isServerCall] at h1 ⊢
    · refine ⟨h1, ?_⟩
      intro ev hev
      rcases hev with hev | hev
      · exact h2 ev hev
      · subst hev
        simp [Event.isLoad, Event.isNewServer, Event.isExit]
    · exact ⟨h1, h2⟩
    · exact ⟨h1, h2⟩
  | sigRecv =>
    cases sa <;> cases ch <;> simp [step, enabled, CallsInv] <;> exact ⟨h1, h2⟩
  | sigLogReturn =>
    cases sa <;> simp [step, enabled, CallsInv, List.filter_append, Event.isServerCall]
    · exact ⟨h1, h2⟩
    · refine ⟨h1, ?_⟩
      intro ev hev
      rcases hev with hev | hev
      · exact h2 ev hev
      · subst hev
        simp [Event.isLoad, Event.isNewServer, Event.isExit]
    · exact ⟨h1, h2⟩
  | sigCtxDone =>
    cases sa <;> cases sd <;> simp [step, enabled, CallsInv] <;> exact ⟨h1, h2⟩
  | mainRecvFirst =>
    cases errs <;> cases m <;> simp [step, enabled, CallsInv] <;> exact ⟨h1, h2⟩
  | mainInterrupt =>
    cases m with
    | interrupting e k => cases k <;> simp [step, enabled, CallsInv] <;> exact ⟨h1, h2⟩
    | _ => simp [step, enabled, CallsInv]; exact ⟨h1, h2⟩
  | mainRecvRest =>
    cases errs <;> cases m <;> simp [step, enabled, CallsInv] <;> exact ⟨h1, h2⟩

theorem exec_append {Config Logger Server : Type} (srv : Server) (logger : Logger)
    (s : GState Config Logger Server) (xs ys : List Action) :
    exec srv logger s (xs ++ ys) = exec srv logger (exec srv logger s xs) ys := by
  simp [exec, List.foldl_append]

theorem exec_cons {Config Logger Server : Type} (srv : Server) (logger : Logger)
    (s : GState Config Logger Server) (a : Action) (xs : List Action) :
    exec srv logger s (a :: xs) = exec srv logger (step srv logger s a) xs := rfl

theorem mainInv_exec {Config Logger Server : Type} (srv : Server) (logger : Logger)
    (sched : List Action) (s : GState Config Logger Server) (h : MainInv s) :
    MainInv (exec srv logger s sched) := by
  induction sched generalizing s with
  | nil => exact h
  | cons a rest ih => exact ih _ (mainInv_step srv logger s a h)

theorem callsInv_exec {Config Logger Server : Type} (srv : Server) (logger : Logger)
    (sched : List Action) (s : GState Config Logger Server) (h : CallsInv srv s) :
    CallsInv srv (exec srv logger s sched) := by
  induction sched generalizing s with
  | nil => exact h
  | cons a rest ih => exact ih _ (callsInv_step srv logger s a h)

theorem mainInv_init {Config Logger Server : Type} :
    MainInv (groupInit Config : GState Config Logger Server) := by
  simp [MainInv, groupInit, exitedCount]

theorem callsInv_init {Config Logger Server : Type} (srv : Server) :
    CallsInv srv (groupInit Config : GState Config Logger Server) := by
  simp [CallsInv, groupInit]

theorem pending_deliver {Config Logger Server : Type} (srv : Server) (logger : Logger)
    (s : GState Config Logger Server) (sig : Signal) :
    (step srv logger s (.deliver sig)).sigActor = .waiting →
      (step srv logger s (.deliver sig)).signalCh.isSome = true := by
  obtain ⟨ch, sd, rd, sa, ra, errs, m, calls⟩ := s
  cases ch <;> simp [step, enabled]

theorem pending_step {Config Logger Server : Type} (srv : Server) (logger : Logger)
    (s : GState Config Logger Server) (a : Action)
    (h : s.sigActor = .waiting → s.signalCh.isSome = true) :
    (step srv logger s a).sigActor = .waiting →
      (step srv logger s a).signalCh.isSome = true := by
  obtain ⟨ch, sd, rd, sa, ra, errs, m, calls⟩ := s
  cases a with
  | deliver sig => cases ch <;> simp [step, enabled]
  | serverRunReturn r => cases ra <;> simpa [step, enabled] using h
  | runStart => cases ra <;> simpa [step, enabled] using h
  | sigRecv => cases sa <;> cases ch <;> simp [step, enabled] at h ⊢
  | sigLogReturn =>
    cases sa
    all_goals simp [step, enabled] at h ⊢
    exact h
  | sigCtxDone =>
    cases sa <;> cases sd
    all_goals simp [step, enabled] at h ⊢
    all_goals exact h
  | mainRecvFirst => cases errs <;> cases m <;> simpa [step, enabled] using h
  | mainInterrupt =>
    cases m with
    | interrupting e k => cases k <;> simpa [step, enabled] using h
    | _ => simpa [step, enabled] using h
  | mainRecvRest => cases errs <;> cases m <;> simpa [step, enabled] using h

theorem pending_exec {Config Logger Server : Type} (srv : Server) (logger : Logger)
    (sched : List Action) (s : GState Config Logger Server)
    (h : s.sigActor = .waiting → s.signalCh.isSome = true) :
    (exec srv logger s sched).sigActor = .waiting →
      (exec srv logger s sched).signalCh.isSome = true := by
  induction sched generalizing s with
  | nil => exact h
  | cons a rest ih => exact ih _ (pending_step srv logger s a h)

theorem progress_of_pending {Config Logger Server : Type}
    (s : GState Config Logger Server) (hinv : MainInv s)
    (hp : s.sigActor = .waiting → s.signalCh.isSome = true) :
    shutdownReached s = true ∨ ∃ a : Action, a.isProgram = true ∧ enabled s a = true := by
  obtain ⟨ch, sd, rd, sa, ra, errs, m, calls⟩ := s
  cases m with
  | interrupting e k => exact Or.inr ⟨.mainInterrupt, rfl, by simp [enabled]⟩
  | waitFirst =>
    cases errs with
    | cons e rest => exact Or.inr ⟨.mainRecvFirst, rfl, by simp [enabled]⟩
    | nil =>
      cases sa with
      | logging sig => exact Or.inr ⟨.sigLogReturn, rfl, by simp [enabled]⟩
      | exited => cases ra <;> simp [MainInv, exitedCount] at hinv
      | waiting =>
        cases ch with
        | none => simp at hp
        | some sig => exact Or.inr ⟨.sigRecv, rfl, by simp [enabled]⟩
  | waitRest e =>
    cases sa with
    | logging sig => exact Or.inr ⟨.sigLogReturn, rfl, by simp [enabled]⟩
    | waiting =>
      refine Or.inr ⟨.sigCtxDone, rfl, ?_⟩
      simp [MainInv] at hinv
      simp [enabled, hinv]
    | exited =>
      left
      simp [MainInv] at hinv
      simp [shutdownReached, GroupMain.interruptsInvoked, hinv]
  | returned e =>
    cases sa with
    | exited =>
      left
      simp [MainInv] at hinv
      simp [shutdownReached, GroupMain.interruptsInvoked, hinv]
    | waiting => cases ra <;> simp [MainInv, exitedCount] at hinv
    | logging sig => cases ra <;> simp [MainInv, exitedCount] at hinv

theorem stepsLeft_program {Config Logger Server : Type} (srv : Server) (logger : Logger)
    (s : GState Config Logger Server) (a : Action) (hp : a.isProgram = true)
    (he : enabled s a = true) : stepsLeft (step srv logger s a) < stepsLeft s := by
  obtain ⟨ch, sd, rd, sa, ra, errs, m, calls⟩ := s
  cases a with
  | deliver sig => simp [Action.isProgram] at hp
  | serverRunReturn r => simp [Action.isProgram] at hp
  | runStart => cases ra <;> simp [step, enabled, stepsLeft] at he ⊢
  | sigRecv => cases sa <;> cases ch <;> simp [step, enabled, stepsLeft] at he ⊢
  | sigLogReturn => cases sa <;> simp [step, enabled, stepsLeft] at he ⊢
  | sigCtxDone => cases sa <;> cases sd <;> simp [step, enabled, stepsLeft] at he ⊢
  | mainRecvFirst => cases errs <;> cases m <;> simp [step, enabled, stepsLeft] at he ⊢
  | mainInterrupt =>
    cases m with
    | interrupting e k => cases k <;> simp [step, enabled, stepsLeft]
    | _ => simp [enabled] at he
  | mainRecvRest => cases errs <;> cases m <;> simp [step, enabled, stepsLeft] at he ⊢

theorem stepsLeft_step_le {Config Logger Server : Type} (srv : Server) (logger : Logger)
    (s : GState Config Logger Server) (a : Action) :
    stepsLeft (step srv logger s a) ≤ stepsLeft s := by
  by_cases he : enabled s a = true
  · cases hp : a.isProgram
    · obtain ⟨ch, sd, rd, sa, ra, errs, m, calls⟩ := s
      cases a with
      | deliver sig => cases ch <;> simp [step, enabled, stepsLeft]
      | serverRunReturn r => cases ra <;> simp [step, enabled, stepsLeft] at he ⊢
      | _ => simp [Action.isProgram] at hp
    · exact Nat.le_of_lt (stepsLeft_program srv logger s a hp he)
  · simp [step, he]

theorem shutdownReached_step {Config Logger Server : Type} (srv : Server) (logger : Logger)
    (s : GState Config Logger Server) (a : Action) (h : shutdownReached s = true) :
    shutdownReached (step srv logger s a) = true := by
  obtain ⟨ch, sd, rd, sa, ra, errs, m, calls⟩ := s
  cases a with
  | deliver sig => cases ch <;> simpa [step, enabled] using h
  | serverRunReturn r => cases ra <;> simpa [step, enabled, shutdownReached] using h
  | runStart => cases ra <;> simpa [step, enabled, shutdownReached] using h
  | sigRecv => cases sa <;> cases ch <;> simp [step, enabled, shutdownReached] at h ⊢ <;> exact h
  | sigLogReturn =>
    cases sa
    all_goals simp [step, enabled, shutdownReached] at h ⊢
    exact h
  | sigCtxDone =>
    cases sa <;> cases sd
    all_goals simp [step, enabled, shutdownReached] at h ⊢
    all_goals exact h
  | mainRecvFirst =>
    cases errs <;> cases m <;>
      simp [step, enabled, shutdownReached, GroupMain.interruptsInvoked] at h ⊢ <;> exact h
  | mainInterrupt =>
    cases m with
    | interrupting e k => simp [shutdownReached, GroupMain.interruptsInvoked] at h
    | _ => simpa [step, enabled] using h
  | mainRecvRest =>
    cases errs <;> cases m <;>
      simp [step, enabled, shutdownReached, GroupMain.interruptsInvoked] at h ⊢ <;> exact h

theorem shutdownReached_exec {Config Logger Server : Type} (srv : Server) (logger : Logger)
    (sched : List Action) (s : GState Config Logger Server)
    (h : shutdownReached s = true) : shutdownReached (exec srv logger s sched) = true := by
  induction sched generalizing s with
  | nil => exact h
  | cons a rest ih => exact ih _ (shutdownReached_step srv logger s a h)

theorem firstExit_append {Config Logger Server : Type} (srv : Server) (logger : Logger)
    (xs ys : List Action) (s : GState Config Logger Server) :
    firstExit srv logger s (xs ++ ys) =
      firstOr (firstExit srv logger s xs) (firstExit srv logger (exec srv logger s xs) ys) := by
  induction xs generalizing s with
  | nil => simp [firstExit, exec, firstOr]
  | cons a rest ih =>
    simp only [List.cons_append, firstExit, exec_cons]
    split
    · rfl
    · exact ih _

theorem firstInv_step {Config Logger Server : Type} (srv : Server) (logger : Logger)
    (s : GState Config Logger Server) (a : Action) (fe : Option Action)
    (hm : MainInv s) (h : FirstInv s fe) :
    FirstInv (step srv logger s a)
      (firstOr fe (if (exitValue s a).isSome then some a else none)) := by
  obtain ⟨ch, sd, rd, sa, ra, errs, m, calls⟩ := s
  cases m with
  | interrupting e k =>
    obtain ⟨x, rfl, hx⟩ := h
    cases a with
    | mainInterrupt => cases k <;> exact ⟨x, rfl, hx⟩
    | deliver sig => cases ch <;> exact ⟨x, rfl, hx⟩
    | serverRunReturn r => cases ra <;> exact ⟨x, rfl, hx⟩
    | runStart => cases ra <;> exact ⟨x, rfl, hx⟩
    | sigRecv => cases sa <;> cases ch <;> exact ⟨x, rfl, hx⟩
    | sigLogReturn => cases sa <;> exact ⟨x, rfl, hx⟩
    | sigCtxDone => cases sa <;> cases sd <;> exact ⟨x, rfl, hx⟩
    | mainRecvFirst => cases errs <;> exact ⟨x, rfl, hx⟩
    | mainRecvRest => cases errs <;> exact ⟨x, rfl, hx⟩
  | waitRest e =>
    obtain ⟨x, rfl, hx⟩ := h
    cases a with
    | mainInterrupt => exact ⟨x, rfl, hx⟩
    | deliver sig => cases ch <;> exact ⟨x, rfl, hx⟩
    | serverRunReturn r => cases ra <;> exact ⟨x, rfl, hx⟩
    | runStart => cases ra <;> exact ⟨x, rfl, hx⟩
    | sigRecv => cases sa <;> cases ch <;> exact ⟨x, rfl, hx⟩
    | sigLogReturn => cases sa <;> exact ⟨x, rfl, hx⟩
    | sigCtxDone => cases sa <;> cases sd <;> exact ⟨x, rfl, hx⟩
    | mainRecvFirst => cases errs <;> exact ⟨x, rfl, hx⟩
    | mainRecvRest => cases errs <;> exact ⟨x, rfl, hx⟩
  | returned e =>
    obtain ⟨x, rfl, hx⟩ := h
    cases a with
    | mainInterrupt => exact ⟨x, rfl, hx⟩
    | deliver sig => cases ch <;> exact ⟨x, rfl, hx⟩
    | serverRunReturn r => cases ra <;> exact ⟨x, rfl, hx⟩
    | runStart => cases ra <;> exact ⟨x, rfl, hx⟩
    | sigRecv => cases sa <;> cases ch <;> exact ⟨x, rfl, hx⟩
    | sigLogReturn => cases sa <;> exact ⟨x, rfl, hx⟩
    | sigCtxDone => cases sa <;> cases sd <;> exact ⟨x, rfl, hx⟩
    | mainRecvFirst => cases errs <;> exact ⟨x, rfl, hx⟩
    | mainRecvRest => cases errs <;> exact ⟨x, rfl, hx⟩
  | waitFirst =>
    have hsd : sd = false := by
      simp [MainInv] at hm
      exact hm.2.1
    subst hsd
    cases fe with
    | some x =>
      obtain ⟨v, hv, hhead⟩ := h
      simp only at hhead
      cases errs with
      | nil => simp at hhead
      | cons e0 rest =>
        simp only [List.head?_cons, Option.some.injEq] at hhead
        subst hhead
        cases a with
        | mainInterrupt => exact ⟨_, hv, rfl⟩
        | deliver sig => cases ch <;> exact ⟨_, hv, rfl⟩
        | serverRunReturn r => cases ra <;> exact ⟨_, hv, rfl⟩
        | runStart => cases ra <;> exact ⟨_, hv, rfl⟩
        | sigRecv => cases sa <;> cases ch <;> exact ⟨_, hv, rfl⟩
        | sigLogReturn => cases sa <;> exact ⟨_, hv, rfl⟩
        | sigCtxDone => cases sa <;> exact ⟨_, hv, rfl⟩
        | mainRecvFirst => exact ⟨x, rfl, hv⟩
        | mainRecvRest => exact ⟨_, hv, rfl⟩
    | none =>
      have he : errs = [] := h
      subst he
      cases a with
      | mainInterrupt => simp [FirstInv, step, enabled, exitValue, firstOr]
      | deliver sig => cases ch <;> simp [FirstInv, step, enabled, exitValue, firstOr]
      | serverRunReturn r =>
        cases ra <;> simp [FirstInv, step, enabled, exitValue, firstOr, okFirst]
      | runStart => cases ra <;> simp [FirstInv, step, enabled, exitValue, firstOr]
      | sigRecv => cases sa <;> cases ch <;> simp [FirstInv, step, enabled, exitValue, firstOr]
      | sigLogReturn => cases sa <;> simp [FirstInv, step, enabled, exitValue, firstOr, okFirst]
      | sigCtxDone => cases sa <;> simp [FirstInv, step, enabled, exitValue, firstOr]
      | mainRecvFirst => simp [FirstInv, step, enabled, exitValue, firstOr]
      | mainRecvRest => simp [FirstInv, step, enabled, exitValue, firstOr]

theorem firstInv_reachable {Config Logger Server : Type} (srv : Server) (logger : Logger)
    (sched : List Action) :
    FirstInv (exec srv logger (groupInit Config : GState Config Logger Server) sched)
      (firstExit srv logger (groupInit Config : GState Config Logger Server) sched) := by
  induction sched using List.reverseRecOn with
  | nil => simp [FirstInv, exec, firstExit, groupInit]
  | append_singleton xs a ih =>
    have hm := mainInv_exec srv logger xs (groupInit Config : GState Config Logger Server)
      mainInv_init
    have hstep := firstInv_step srv logger
      (exec srv logger (groupInit Config : GState Config Logger Server) xs) a
      (firstExit srv logger (groupInit Config : GState Config Logger Server) xs) hm ih
    rw [exec_append, firstExit_append]
    simpa [exec, firstExit] using hstep

/-! ## The claims about `run` -/

theorem stepsLeft_le_seven {Config Logger Server : Type} (s : GState Config Logger Server) :
    stepsLeft s ≤ 7 := by
  obtain ⟨ch, sd, rd, sa, ra, errs, m, calls⟩ := s
  cases sa <;> cases ra <;> cases m <;> simp [stepsLeft] <;> split <;> omega

theorem shutdownReached_of_stepsLeft_zero {Config Logger Server : Type}
    (s : GState Config Logger Server) (hinv : MainInv s) (h : stepsLeft s = 0) :
    shutdownReached s = true := by
  obtain ⟨ch, sd, rd, sa, ra, errs, m, calls⟩ := s
  cases m with
  | returned e =>
    cases sa with
    | exited =>
      simp [MainInv] at hinv
      simp [shutdownReached, GroupMain.interruptsInvoked, hinv]
    | waiting => simp [stepsLeft] at h
    | logging sig => simp [stepsLeft] at h
  | waitFirst => simp [stepsLeft] at h
  | waitRest e => simp [stepsLeft] at h
  | interrupting e k => cases k <;> simp [stepsLeft] at h

theorem runProgram_reaches {Config Logger Server : Type} (srv : Server) (logger : Logger)
    (pick : GState Config Logger Server → Action) (hpick : Schedules pick) (n : Nat)
    (s : GState Config Logger Server) (hinv : MainInv s)
    (hp : s.sigActor = .waiting → s.signalCh.isSome = true) :
    MainInv (runProgram srv logger pick n s) ∧
      (shutdownReached (runProgram srv logger pick n s) = true ∨
        stepsLeft (runProgram srv logger pick n s) + n ≤ stepsLeft s) := by
  induction n generalizing s with
  | zero => exact ⟨hinv, Or.inr (Nat.le_refl _)⟩
  | succ n ih =>
    have hinv2 := mainInv_step srv logger s (pick s) hinv
    have hp2 := pending_step srv logger s (pick s) hp
    obtain ⟨hI, hR⟩ := ih (step srv logger s (pick s)) hinv2 hp2
    refine ⟨hI, ?_⟩
    rcases hR with hR | hR
    · exact Or.inl hR
    · rcases progress_of_pending s hinv hp with hdone | hen
      · left
        have hstab : ∀ (k : Nat) (s2 : GState Config Logger Server),
            shutdownReached s2 = true →
            shutdownReached (runProgram srv logger pick k s2) = true := by
          intro k
          induction k with
          | zero => exact fun s2 h2 => h2
          | succ k ihk =>
            exact fun s2 h2 => ihk _ (shutdownReached_step srv logger s2 (pick s2) h2)
        exact hstab (n + 1) s hdone
      · right
        obtain ⟨hprog, hena⟩ := hpick s hen
        have hlt := stepsLeft_program srv logger s (pick s) hprog hena
        show stepsLeft (runProgram srv logger pick n (step srv logger s (pick s))) + (n + 1)
          ≤ stepsLeft s
        omega

theorem firstEnabled_schedules {Config Logger Server : Type} :
    Schedules (firstEnabled : GState Config Logger Server → Action) := by
  intro s hex
  obtain ⟨a, hprog, hena⟩ := hex
  have hmem : a ∈ programActions := by
    cases a <;> simp [programActions, Action.isProgram] at hprog ⊢
  cases hfind : programActions.find? (enabled s) with
  | none =>
    have := List.find?_eq_none.mp hfind a hmem
    simp [hena] at this
  | some b =>
    have hb := List.find?_some hfind
    have hbmem := List.mem_of_find?_eq_some hfind
    simp only [firstEnabled, hfind, Option.getD_some]
    refine ⟨?_, hb⟩
    simp only [programActions, List.mem_cons, List.mem_singleton, List.not_mem_nil,
      or_false] at hbmem
    rcases hbmem with rfl | rfl | rfl | rfl | rfl | rfl | rfl <;> rfl

/-- C2: once SIGINT or SIGTERM has been delivered to the signal channel while
`group.Run()` executes (in particular before `server.Run` has returned), the shutdown
follows.  Writing "shutdown reached" for: the termination actor has returned, both
interrupt functions have been called and the context given to `server.Run` is cancelled:
in every later state either the shutdown is reached or some step of the program is
enabled; every step of the program strictly decreases a bound that no move of the
environment increases; under any scheduler of the program's goroutines, seven steps of
the program, with no further move of the environment, reach the shutdown; and once
reached it persists. -/
theorem signal_leads_to_run_cancel {Config Logger Server : Type} (srv : Server)
    (logger : Logger) (pre post : List Action) (sig : Signal)
    (hrun : (exec srv logger (groupInit Config : GState Config Logger Server) pre).runActor
      ≠ .exited) :
    (shutdownReached
        (exec srv logger (groupInit Config : GState Config Logger Server)
          (pre ++ Action.deliver sig :: post)) = true ∨
      ∃ a : Action, a.isProgram = true ∧
        enabled (exec srv logger (groupInit Config : GState Config Logger Server)
          (pre ++ Action.deliver sig :: post)) a = true) ∧
    (∀ a : Action, a.isProgram = true →
      enabled (exec srv logger (groupInit Config : GState Config Logger Server)
        (pre ++ Action.deliver sig :: post)) a = true →
      stepsLeft (step srv logger
        (exec srv logger (groupInit Config : GState Config Logger Server)
          (pre ++ Action.deliver sig :: post)) a) <
      stepsLeft (exec srv logger (groupInit Config : GState Config Logger Server)
        (pre ++ Action.deliver sig :: post))) ∧
    (∀ a : Action,
      stepsLeft (step srv logger
        (exec srv logger (groupInit Config : GState Config Logger Server)
          (pre ++ Action.deliver sig :: post)) a) ≤
      stepsLeft (exec srv logger (groupInit Config : GState Config Logger Server)
        (pre ++ Action.deliver sig :: post))) ∧
    (∀ pick : GState Config Logger Server → Action, Schedules pick →
      shutdownReached
        (runProgram srv logger pick 7
          (exec srv logger (groupInit Config : GState Config Logger Server)
            (pre ++ Action.deliver sig :: post))) = true) ∧
    (shutdownReached
        (exec srv logger (groupInit Config : GState Config Logger Server)
          (pre ++ Action.deliver sig :: post)) = true →
      ∀ more : List Action,
        shutdownReached
          (exec srv logger
            (exec srv logger (groupInit Config : GState Config Logger Server)
              (pre ++ Action.deliver sig :: post)) more) = true) := by
  have _ := hrun
  have hinv : MainInv (exec srv logger (groupInit Config : GState Config Logger Server)
      (pre ++ Action.deliver sig :: post)) :=
    mainInv_exec srv logger _ _ mainInv_init
  have hpend : (exec srv logger (groupInit Config : GState Config Logger Server)
      (pre ++ Action.deliver sig :: post)).sigActor = .waiting →
      (exec srv logger (groupInit Config : GState Config Logger Server)
        (pre ++ Action.deliver sig :: post)).signalCh.isSome = true := by
    rw [exec_append, exec_cons]
    exact pending_exec srv logger post _ (pending_deliver srv logger _ sig)
  refine ⟨progress_of_pending _ hinv hpend,
    fun a hp he => stepsLeft_program srv logger _ a hp he,
    fun a => stepsLeft_step_le srv logger _ a, ?_,
    fun h more => shutdownReached_exec srv logger more _ h⟩
  intro pick hpick
  obtain ⟨hI, hR⟩ := runProgram_reaches srv logger pick hpick 7 _ hinv hpend
  rcases hR with hR | hR
  · exact hR
  · have h7 := stepsLeft_le_seven (exec srv logger
      (groupInit Config : GState Config Logger Server) (pre ++ Action.deliver sig :: post))
    exact shutdownReached_of_stepsLeft_zero _ hI (by omega)

/-- Witness for C2: the server actor has started and is serving when a SIGTERM is
delivered; the program, scheduled by `firstEnabled`, then reaches the shutdown. -/
theorem signal_leads_to_run_cancel_witness :
    (exec (9 : Nat) (7 : Nat) (groupInit Nat : GState Nat Nat Nat) [.runStart]).runActor
        ≠ .exited ∧
      shutdownReached
        (runProgram (9 : Nat) (7 : Nat) firstEnabled 7
          (exec (9 : Nat) (7 : Nat) (groupInit Nat : GState Nat Nat Nat)
            ([.runStart] ++ Action.deliver .SIGTERM :: []))) = true :=
  ⟨by decide,
    (signal_leads_to_run_cancel (9 : Nat) (7 : Nat) [.runStart] [] .SIGTERM
      (by decide)).2.2.2.1 firstEnabled firstEnabled_schedules⟩

/-- C3, as stated, fails: in the graceful stop `server.NewServer` succeeds and `run`
returns nil, yet neither `Start` nor `Shutdown` is called on the server. -/
theorem run_skips_start_and_shutdown :
    demo.newServer 0 7 = .ok 9 ∧
      (run demo 0 7 gracefulStop).2 = .returned none ∧
      Event.serverCall 9 .start ∉ (run demo 0 7 gracefulStop).1 ∧
      Event.serverCall 9 .shutdown ∉ (run demo 0 7 gracefulStop).1 :=
  ⟨rfl, by decide, by decide, by decide⟩

/-- C3, amended: in every execution of `run` in which `server.NewServer` succeeds and
`run` returns, the calls made on a server are exactly one call of `Run` with the run
context, on the server that `server.NewServer` returned; `Start` and `Shutdown` are not
called on it. -/
theorem run_calls_only_server_run {Config Logger Server : Type}
    (c : Collaborators Config Logger Server) (conf : Config) (logger : Logger)
    (sched : List Action) (srv : Server) (e : Option GoError)
    (hsrv : c.newServer conf logger = .ok srv)
    (hret : (run c conf logger sched).2 = .returned e) :
    (run c conf logger sched).1.filter Event.isServerCall =
        [Event.serverCall srv (.run .runCtx)] ∧
      Event.serverCall srv .start ∉ (run c conf logger sched).1 ∧
      Event.serverCall srv .shutdown ∉ (run c conf logger sched).1 := by
  have hfilter : (run c conf logger sched).1.filter Event.isServerCall =
      [Event.serverCall srv (.run .runCtx)] := by
    have hm := mainInv_exec srv logger sched (groupInit Config : GState Config Logger Server)
      mainInv_init
    have hc := callsInv_exec srv logger sched (groupInit Config : GState Config Logger Server)
      (callsInv_init srv)
    simp only [run, hsrv] at hret ⊢
    generalize exec srv logger (groupInit Config : GState Config Logger Server) sched = s
      at hm hc hret ⊢
    obtain ⟨ch, sd, rd, sa, ra, errs, m, calls⟩ := s
    cases m with
    | returned e0 =>
      have hra : ra ≠ .spawned := by
        intro h
        subst h
        cases sa <;> simp [MainInv, exitedCount] at hm
      have h1 := hc.1
      simp only [if_neg hra] at h1
      simp [List.filter_cons, Event.isServerCall, h1]
    | waitFirst => simp at hret
    | interrupting e0 k => simp at hret
    | waitRest e0 => simp at hret
  refine ⟨hfilter, ?_, ?_⟩
  · intro hmem
    have : Event.serverCall srv .start ∈
        (run c conf logger sched).1.filter Event.isServerCall :=
      List.mem_filter.mpr ⟨hmem, rfl⟩
    rw [hfilter] at this
    simp at this
  · intro hmem
    have : Event.serverCall srv .shutdown ∈
        (run c conf logger sched).1.filter Event.isServerCall :=
      List.mem_filter.mpr ⟨hmem, rfl⟩
    rw [hfilter] at this
    simp at this

/-- Witness for C3 amended: the graceful stop. -/
theorem run_calls_only_server_run_witness :
    demo.newServer 0 7 = .ok 9 ∧
      (run demo 0 7 gracefulStop).2 = .returned none ∧
      ((run demo 0 7 gracefulStop).1.filter Event.isServerCall =
          [Event.serverCall 9 (.run .runCtx)] ∧
        Event.serverCall 9 .start ∉ (run demo 0 7 gracefulStop).1 ∧
        Event.serverCall 9 .shutdown ∉ (run demo 0 7 gracefulStop).1) :=
  ⟨rfl, by decide, run_calls_only_server_run demo 0 7 gracefulStop 9 none rfl (by decide)⟩

/-- C9, as stated, fails: in the race schedule the termination actor has received the
SIGTERM (it is logging it) while `server.Run` is still running, then `server.Run` fails
on its own and is the first actor to exit; `run` returns that error, not nil. -/
theorem run_result_signal_race :
    demo.newServer 0 7 = .ok 9 ∧
      (exec (9 : Nat) (7 : Nat) (groupInit Nat : GState Nat Nat Nat)
        (signalRace.take 3)).sigActor = .logging .SIGTERM ∧
      (exec (9 : Nat) (7 : Nat) (groupInit Nat : GState Nat Nat Nat)
        (signalRace.take 3)).runActor = .running ∧
      (run demo 0 7 signalRace).2 = .returned (some "listener closed") :=
  ⟨rfl, by decide, by decide, by decide⟩

/-- C9, amended: when `server.NewServer` succeeds and `run` returns, the value returned is
the value of the first actor of the run group to exit: either the termination actor
exits first, after receiving a signal, and the value is nil (whatever `server.Run` returns
later is discarded), or `server.Run` exits first and the value is exactly what it
returned. -/
theorem run_returns_first_exit {Config Logger Server : Type}
    (c : Collaborators Config Logger Server) (conf : Config) (logger : Logger)
    (sched : List Action) (srv : Server) (e : Option GoError)
    (hsrv : c.newServer conf logger = .ok srv)
    (hret : (run c conf logger sched).2 = .returned e) :
    (firstExit srv logger (groupInit Config : GState Config Logger Server) sched =
        some .sigLogReturn ∧ e = none) ∨
      firstExit srv logger (groupInit Config : GState Config Logger Server) sched =
        some (.serverRunReturn e) := by
  have hf := @firstInv_reachable Config Logger Server srv logger sched
  simp only [run, hsrv] at hret
  generalize exec srv logger (groupInit Config : GState Config Logger Server) sched = s
    at hf hret
  generalize firstExit srv logger (groupInit Config : GState Config Logger Server) sched = fe
    at hf
  obtain ⟨ch, sd, rd, sa, ra, errs, m, calls⟩ := s
  cases m with
  | returned e0 =>
    simp only [RunResult.returned.injEq] at hret
    subst hret
    obtain ⟨a, rfl, ha⟩ := hf
    rcases ha with ha | ⟨ha, he⟩
    · exact Or.inr (by rw [ha])
    · exact Or.inl ⟨by rw [ha], he⟩
  | waitFirst => simp at hret
  | interrupting e0 k => simp at hret
  | waitRest e0 => simp at hret

/-- Witness for C9 amended: in the race schedule `server.Run` is the first to exit. -/
theorem run_returns_first_exit_witness :
    demo.newServer 0 7 = .ok 9 ∧
      (run demo 0 7 signalRace).2 = .returned (some "listener closed") ∧
      ((firstExit (9 : Nat) (7 : Nat) (groupInit Nat : GState Nat Nat Nat) signalRace =
          some .sigLogReturn ∧ some "listener closed" = (none : Option GoError)) ∨
        firstExit (9 : Nat) (7 : Nat) (groupInit Nat : GState Nat Nat Nat) signalRace =
          some (.serverRunReturn (some "listener closed"))) :=
  ⟨rfl, by decide,
    run_returns_first_exit demo 0 7 signalRace 9 (some "listener closed") rfl (by decide)⟩

/-! ## The claims about the `Run` handler -/

theorem run_trace_shape {Config Logger Server : Type}
    (c : Collaborators Config Logger Server) (conf : Config) (logger : Logger)
    (sched : List Action) :
    ∃ rest : List (Event Config Logger Server),
      (run c conf logger sched).1 = Event.newServer conf logger :: rest ∧
      ∀ ev ∈ rest, ev.isLoad = false ∧ ev.isNewServer = false ∧ ev.isExit = false := by
  unfold run
  cases hsrv : c.newServer conf logger with
  | error err => exact ⟨[], rfl, by simp⟩
  | ok srv =>
    have hc := callsInv_exec srv logger sched (groupInit Config : GState Config Logger Server)
      (callsInv_init srv)
    refine ⟨Event.signalNotify [.SIGINT, .SIGTERM] ::
      (exec srv logger (groupInit Config : GState Config Logger Server) sched).calls, rfl, ?_⟩
    intro ev hev
    rcases List.mem_cons.mp hev with hev | hev
    · subst hev
      simp [Event.isLoad, Event.isNewServer, Event.isExit]
    · exact hc.2 ev hev

theorem cmdRun_load_error {Config Logger Server : Type}
    (c : Collaborators Config Logger Server) (configPath : String) (configExpandEnv : Bool)
    (conf : Config) (sched : List Action) (err : GoError)
    (h : loadError c configPath configExpandEnv conf = some err) :
    cmdRun c configPath configExpandEnv conf sched =
      (loadTrace configPath configExpandEnv conf ++
        [.printf ("load config: " ++ configPath ++ ": " ++ err ++ "\n"), .exit 1],
        .exited 1) := by
  by_cases hp : configPath = ""
  · simp [loadError, hp] at h
  · simp only [loadError, if_neg hp] at h
    simp [cmdRun, loadTrace, hp, h]

theorem cmdRun_validate_error {Config Logger Server : Type}
    (c : Collaborators Config Logger Server) (configPath : String) (configExpandEnv : Bool)
    (conf : Config) (sched : List Action) (conf2 : Config) (err : GoError)
    (h : loadError c configPath configExpandEnv conf = none)
    (hv : c.validate (confAfterLoad c configPath configExpandEnv conf) = (conf2, some err)) :
    cmdRun c configPath configExpandEnv conf sched =
      (loadTrace configPath configExpandEnv conf ++
        [.validate (confAfterLoad c configPath configExpandEnv conf),
          .printf ("invalid config: " ++ err ++ "\n"), .exit 1],
        .exited 1) := by
  by_cases hp : configPath = ""
  · simp only [confAfterLoad, if_pos hp] at hv
    simp [cmdRun, loadTrace, confAfterLoad, hp, hv]
  · simp only [loadError, if_neg hp] at h
    simp only [confAfterLoad, if_neg hp] at hv
    simp [cmdRun, loadTrace, confAfterLoad, hp, h, hv]

theorem cmdRun_logger_error {Config Logger Server : Type}
    (c : Collaborators Config Logger Server) (configPath : String) (configExpandEnv : Bool)
    (conf : Config) (sched : List Action) (conf2 : Config) (err : GoError)
    (h : loadError c configPath configExpandEnv conf = none)
    (hv : c.validate (confAfterLoad c configPath configExpandEnv conf) = (conf2, none))
    (hl : c.newLogger (c.logLevel conf2) (c.logSubsystems conf2) = .error err) :
    cmdRun c configPath configExpandEnv conf sched =
      (loadTrace configPath configExpandEnv conf ++
        [.validate (confAfterLoad c configPath configExpandEnv conf),
          .newLogger (c.logLevel conf2) (c.logSubsystems conf2),
          .printf ("failed to setup logger: " ++ err ++ "\n"), .exit 1],
        .exited 1) := by
  by_cases hp : configPath = ""
  · simp only [confAfterLoad, if_pos hp] at hv
    simp [cmdRun, loadTrace, confAfterLoad, hp, hv, hl]
  · simp only [loadError, if_neg hp] at h
    simp only [confAfterLoad, if_neg hp] at hv
    simp [cmdRun, loadTrace, confAfterLoad, hp, h, hv, hl]

theorem cmdRun_run_error {Config Logger Server : Type}
    (c : Collaborators Config Logger Server) (configPath : String) (configExpandEnv : Bool)
    (conf : Config) (sched : List Action) (conf2 : Config) (logger : Logger) (err : GoError)
    (h : loadError c configPath configExpandEnv conf = none)
    (hv : c.validate (confAfterLoad c configPath configExpandEnv conf) = (conf2, none))
    (hl : c.newLogger (c.logLevel conf2) (c.logSubsystems conf2) = .ok logger)
    (hr : (run c conf2 logger sched).2 = .returned (some err)) :
    cmdRun c configPath configExpandEnv conf sched =
      (loadTrace configPath configExpandEnv conf ++
        [.validate (confAfterLoad c configPath configExpandEnv conf),
          .newLogger (c.logLevel conf2) (c.logSubsystems conf2)] ++
        (run c conf2 logger sched).1 ++
        [.loggerError logger "failed to run server" err, .exit 1],
        .exited 1) := by
  rcases hrun : run c conf2 logger sched with ⟨rtr, res⟩
  rw [hrun] at hr
  simp only at hr
  subst hr
  by_cases hp : configPath = ""
  · simp only [confAfterLoad, if_pos hp] at hv
    simp [cmdRun, loadTrace, confAfterLoad, hp, hv, hl, hrun]
  · simp only [loadError, if_neg hp] at h
    simp only [confAfterLoad, if_neg hp] at hv
    simp [cmdRun, loadTrace, confAfterLoad, hp, h, hv, hl, hrun]

theorem cmdRun_run_nil {Config Logger Server : Type}
    (c : Collaborators Config Logger Server) (configPath : String) (configExpandEnv : Bool)
    (conf : Config) (sched : List Action) (conf2 : Config) (logger : Logger)
    (h : loadError c configPath configExpandEnv conf = none)
    (hv : c.validate (confAfterLoad c configPath configExpandEnv conf) = (conf2, none))
    (hl : c.newLogger (c.logLevel conf2) (c.logSubsystems conf2) = .ok logger)
    (hr : (run c conf2 logger sched).2 = .returned none) :
    cmdRun c configPath configExpandEnv conf sched =
      (loadTrace configPath configExpandEnv conf ++
        [.validate (confAfterLoad c configPath configExpandEnv conf),
          .newLogger (c.logLevel conf2) (c.logSubsystems conf2)] ++
        (run c conf2 logger sched).1,
        .returned) := by
  rcases hrun : run c conf2 logger sched with ⟨rtr, res⟩
  rw [hrun] at hr
  simp only at hr
  subst hr
  by_cases hp : configPath = ""
  · simp only [confAfterLoad, if_pos hp] at hv
    simp [cmdRun, loadTrace, confAfterLoad, hp, hv, hl, hrun]
  · simp only [loadError, if_neg hp] at h
    simp only [confAfterLoad, if_neg hp] at hv
    simp [cmdRun, loadTrace, confAfterLoad, hp, h, hv, hl, hrun]

theorem cmdRun_run_blocked {Config Logger Server : Type}
    (c : Collaborators Config Logger Server) (configPath : String) (configExpandEnv : Bool)
    (conf : Config) (sched : List Action) (conf2 : Config) (logger : Logger)
    (h : loadError c configPath configExpandEnv conf = none)
    (hv : c.validate (confAfterLoad c configPath configExpandEnv conf) = (conf2, none))
    (hl : c.newLogger (c.logLevel conf2) (c.logSubsystems conf2) = .ok logger)
    (hr : (run c conf2 logger sched).2 = .blocked) :
    cmdRun c configPath configExpandEnv conf sched =
      (loadTrace configPath configExpandEnv conf ++
        [.validate (confAfterLoad c configPath configExpandEnv conf),
          .newLogger (c.logLevel conf2) (c.logSubsystems conf2)] ++
        (run c conf2 logger sched).1,
        .blocked) := by
  rcases hrun : run c conf2 logger sched with ⟨rtr, res⟩
  rw [hrun] at hr
  simp only at hr
  subst hr
  by_cases hp : configPath = ""
  · simp only [confAfterLoad, if_pos hp] at hv
    simp [cmdRun, loadTrace, confAfterLoad, hp, hv, hl, hrun]
  · simp only [loadError, if_neg hp] at h
    simp only [confAfterLoad, if_neg hp] at hv
    simp [cmdRun, loadTrace, confAfterLoad, hp, h, hv, hl, hrun]

theorem cmdRun_cases {Config Logger Server : Type}
    (c : Collaborators Config Logger Server) (configPath : String) (configExpandEnv : Bool)
    (conf : Config) (sched : List Action) :
    (∃ err, loadError c configPath configExpandEnv conf = some err) ∨
    (loadError c configPath configExpandEnv conf = none ∧
      ∃ conf2 err,
        c.validate (confAfterLoad c configPath configExpandEnv conf) = (conf2, some err)) ∨
    (loadError c configPath configExpandEnv conf = none ∧
      ∃ conf2, c.validate (confAfterLoad c configPath configExpandEnv conf) = (conf2, none) ∧
        ((∃ err, c.newLogger (c.logLevel conf2) (c.logSubsystems conf2) = .error err) ∨
          ∃ logger, c.newLogger (c.logLevel conf2) (c.logSubsystems conf2) = .ok logger ∧
            ((∃ err, (run c conf2 logger sched).2 = .returned (some err)) ∨
              (run c conf2 logger sched).2 = .returned none ∨
              (run c conf2 logger sched).2 = .blocked))) := by
  cases hload : loadError c configPath configExpandEnv conf with
  | some err => exact Or.inl ⟨err, rfl⟩
  | none =>
    right
    rcases hv : c.validate (confAfterLoad c configPath configExpandEnv conf) with
      ⟨conf2, _ | err⟩
    · right
      refine ⟨rfl, conf2, rfl, ?_⟩
      cases hl : c.newLogger (c.logLevel conf2) (c.logSubsystems conf2) with
      | error err => exact Or.inl ⟨err, rfl⟩
      | ok logger =>
        right
        refine ⟨logger, rfl, ?_⟩
        cases hr : (run c conf2 logger sched).2 with
        | blocked => exact Or.inr (Or.inr rfl)
        | returned e =>
          cases e with
          | none => exact Or.inr (Or.inl rfl)
          | some err => exact Or.inl ⟨err, rfl⟩
    · exact Or.inl ⟨rfl, conf2, err, rfl⟩

theorem loadTrace_filter_isLoad {Config Logger Server : Type} (configPath : String)
    (configExpandEnv : Bool) (conf : Config) :
    (loadTrace configPath configExpandEnv conf :
        List (Event Config Logger Server)).filter Event.isLoad =
      loadTrace configPath configExpandEnv conf := by
  unfold loadTrace
  split <;> simp [Event.isLoad]

theorem loadTrace_no_newServer_exit {Config Logger Server : Type} (configPath : String)
    (configExpandEnv : Bool) (conf : Config) :
    ∀ ev ∈ (loadTrace configPath configExpandEnv conf : List (Event Config Logger Server)),
      ev.isNewServer = false ∧ ev.isExit = false := by
  unfold loadTrace
  split <;> simp [Event.isNewServer, Event.isExit]

/-- C4: `pikoconfig.Load` is called exactly when `--config.path` is not empty, and then
once, with that path, the command's config struct and the value of
`--config.expand-env`; with the flag defaults nothing is loaded; and when the path is
empty the value of `--config.expand-env` changes nothing in the handler's behaviour. -/
theorem load_called_iff_config_path {Config Logger Server : Type}
    (c : Collaborators Config Logger Server) (configPath : String) (configExpandEnv : Bool)
    (conf : Config) (sched : List Action) :
    (cmdRun c configPath configExpandEnv conf sched).1.filter Event.isLoad =
        (if configPath = "" then [] else [Event.load configPath conf configExpandEnv]) ∧
      (cmdRun c "" false conf sched).1.filter Event.isLoad = [] ∧
      cmdRun c "" configExpandEnv conf sched = cmdRun c "" false conf sched := by
  have key : ∀ (p : String) (x : Bool),
      (cmdRun c p x conf sched).1.filter Event.isLoad =
        (loadTrace p x conf : List (Event Config Logger Server)) := by
    intro p x
    have hlt := @loadTrace_filter_isLoad Config Logger Server p x conf
    rcases cmdRun_cases c p x conf sched with
      ⟨err, h⟩ | ⟨h, conf2, err, hv⟩ | ⟨h, conf2, hv, ⟨err, hl⟩ | ⟨logger, hl, hr⟩⟩
    · rw [cmdRun_load_error c p x conf sched err h]
      simp [List.filter_append, hlt, Event.isLoad]
    · rw [cmdRun_validate_error c p x conf sched conf2 err h hv]
      simp [List.filter_append, hlt, Event.isLoad]
    · rw [cmdRun_logger_error c p x conf sched conf2 err h hv hl]
      simp [List.filter_append, hlt, Event.isLoad]
    · obtain ⟨rest, hrest, hall⟩ := run_trace_shape c conf2 logger sched
      have hnone : rest.filter Event.isLoad = [] :=
        List.filter_eq_nil_iff.mpr (fun ev hev => by simp [(hall ev hev).1])
      rcases hr with ⟨err, hr⟩ | hr | hr
      · rw [cmdRun_run_error c p x conf sched conf2 logger err h hv hl hr, hrest]
        simp [List.filter_append, hlt, Event.isLoad, hnone]
      · rw [cmdRun_run_nil c p x conf sched conf2 logger h hv hl hr, hrest]
        simp [List.filter_append, hlt, Event.isLoad, hnone]
      · rw [cmdRun_run_blocked c p x conf sched conf2 logger h hv hl hr, hrest]
        simp [List.filter_append, hlt, Event.isLoad, hnone]
  refine ⟨?_, ?_, ?_⟩
  · rw [key]
    rfl
  · rw [key]
    rfl
  · simp [cmdRun]

/-- C1: whenever the handler calls `server.NewServer`, `conf.Validate` was called before
on the command's config struct and returned nil, the config handed to `NewServer` is that
struct as the validation left it, and the logger handed to `NewServer` is the one
`log.NewLogger` returned with a nil error; the three calls follow each other in this
order and `NewServer` is called nowhere else. -/
theorem newServer_gets_validated_config {Config Logger Server : Type}
    (c : Collaborators Config Logger Server) (configPath : String) (configExpandEnv : Bool)
    (conf : Config) (sched : List Action) (cfg : Config) (lg : Logger)
    (hcall : Event.newServer cfg lg ∈ (cmdRun c configPath configExpandEnv conf sched).1) :
    loadError c configPath configExpandEnv conf = none ∧
      c.validate (confAfterLoad c configPath configExpandEnv conf) = (cfg, none) ∧
      c.newLogger (c.logLevel cfg) (c.logSubsystems cfg) = .ok lg ∧
      ∃ pre post : List (Event Config Logger Server),
        (cmdRun c configPath configExpandEnv conf sched).1 =
          pre ++ [Event.validate (confAfterLoad c configPath configExpandEnv conf),
            Event.newLogger (c.logLevel cfg) (c.logSubsystems cfg),
            Event.newServer cfg lg] ++ post ∧
        (∀ ev ∈ pre, ev.isNewServer = false) ∧ (∀ ev ∈ post, ev.isNewServer = false) := by
  have hlt := @loadTrace_no_newServer_exit Config Logger Server
    configPath configExpandEnv conf
  have hnot : ∀ ev ∈ (loadTrace configPath configExpandEnv conf :
      List (Event Config Logger Server)), ev ≠ Event.newServer cfg lg := by
    intro ev hev heq
    have := (hlt ev hev).1
    rw [heq] at this
    simp [Event.isNewServer] at this
  rcases cmdRun_cases c configPath configExpandEnv conf sched with
    ⟨err, h⟩ | ⟨h, conf2, err, hv⟩ | ⟨h, conf2, hv, ⟨err, hl⟩ | ⟨logger, hl, hr⟩⟩
  · rw [cmdRun_load_error c configPath configExpandEnv conf sched err h] at hcall
    simp only [List.mem_append, List.mem_cons, List.mem_singleton, List.not_mem_nil,
      or_false, reduceCtorEq] at hcall
    exact absurd rfl (hnot _ hcall)
  · rw [cmdRun_validate_error c configPath configExpandEnv conf sched conf2 err h hv] at hcall
    simp only [List.mem_append, List.mem_cons, List.mem_singleton, List.not_mem_nil,
      or_false, reduceCtorEq] at hcall
    exact absurd rfl (hnot _ hcall)
  · rw [cmdRun_logger_error c configPath configExpandEnv conf sched conf2 err h hv hl] at hcall
    simp only [List.mem_append, List.mem_cons, List.mem_singleton, List.not_mem_nil,
      or_false, reduceCtorEq] at hcall
    exact absurd rfl (hnot _ hcall)
  · obtain ⟨rest, hrest, hall⟩ := run_trace_shape c conf2 logger sched
    have hrestnot : Event.newServer cfg lg ∉ rest := by
      intro hmem
      have := (hall _ hmem).2.1
      simp [Event.isNewServer] at this
    have hpre : ∀ ev ∈ (loadTrace configPath configExpandEnv conf :
        List (Event Config Logger Server)), ev.isNewServer = false :=
      fun ev hev => (hlt ev hev).1
    have hrestns : ∀ ev ∈ rest, ev.isNewServer = false := fun ev hev => (hall ev hev).2.1
    have hshape : ∃ tail : List (Event Config Logger Server),
        (cmdRun c configPath configExpandEnv conf sched).1 =
          loadTrace configPath configExpandEnv conf ++
            [Event.validate (confAfterLoad c configPath configExpandEnv conf),
              Event.newLogger (c.logLevel conf2) (c.logSubsystems conf2),
              Event.newServer conf2 logger] ++ (rest ++ tail) ∧
        (∀ ev ∈ tail, ev.isNewServer = false) := by
      rcases hr with ⟨err, hr⟩ | hr | hr
      · rw [cmdRun_run_error c configPath configExpandEnv conf sched conf2 logger err h hv hl hr,
          hrest]
        exact ⟨[.loggerError logger "failed to run server" err, .exit 1], by simp,
          by simp [Event.isNewServer]⟩
      · rw [cmdRun_run_nil c configPath configExpandEnv conf sched conf2 logger h hv hl hr,
          hrest]
        exact ⟨[], by simp, by simp⟩
      · rw [cmdRun_run_blocked c configPath configExpandEnv conf sched conf2 logger h hv hl hr,
          hrest]
        exact ⟨[], by simp, by simp⟩
    obtain ⟨tail, hshape, htail⟩ := hshape
    have hpost : ∀ ev ∈ rest ++ tail, ev.isNewServer = false := by
      intro ev hev
      rcases List.mem_append.mp hev with hev | hev
      · exact hrestns ev hev
      · exact htail ev hev
    have heq : cfg = conf2 ∧ lg = logger := by
      rw [hshape] at hcall
      simp only [List.mem_append, List.mem_cons, List.mem_singleton, List.not_mem_nil,
        or_false, reduceCtorEq, false_or, Event.newServer.injEq] at hcall
      rcases hcall with (hcall | hcall) | hcall
      · exact absurd rfl (hnot _ hcall)
      · exact hcall
      · have := hpost _ (List.mem_append.mpr hcall)
        simp [Event.isNewServer] at this
    obtain ⟨rfl, rfl⟩ := heq
    exact ⟨h, hv, hl, loadTrace configPath configExpandEnv conf, rest ++ tail, hshape, hpre,
      hpost⟩

/-- Witness for C1: with collaborators that all succeed, `NewServer` is called. -/
theorem newServer_gets_validated_config_witness :
    Event.newServer 1 7 ∈ (cmdRun demo "server.yaml" true 0 gracefulStop).1 ∧
      demo.validate (confAfterLoad demo "server.yaml" true 0) = (1, none) ∧
      demo.newLogger (demo.logLevel 1) (demo.logSubsystems 1) = .ok 7 :=
  ⟨by decide,
    (newServer_gets_validated_config demo "server.yaml" true 0 gracefulStop 1 7
      (by decide)).2.1,
    (newServer_gets_validated_config demo "server.yaml" true 0 gracefulStop 1 7
      (by decide)).2.2.1⟩

theorem cmdRun_exit_shape {Config Logger Server : Type}
    (c : Collaborators Config Logger Server) (configPath : String) (configExpandEnv : Bool)
    (conf : Config) (sched : List Action) :
    ((cmdRun c configPath configExpandEnv conf sched).2 = .exited 1 ∧
      ∃ pre : List (Event Config Logger Server),
        (cmdRun c configPath configExpandEnv conf sched).1 = pre ++ [.exit 1] ∧
        ∀ ev ∈ pre, ev.isExit = false) ∨
    (((cmdRun c configPath configExpandEnv conf sched).2 = .returned ∨
        (cmdRun c configPath configExpandEnv conf sched).2 = .blocked) ∧
      ∀ ev ∈ (cmdRun c configPath configExpandEnv conf sched).1, ev.isExit = false) := by
  have hlt : ∀ ev ∈ (loadTrace configPath configExpandEnv conf :
      List (Event Config Logger Server)), ev.isExit = false :=
    fun ev hev => (loadTrace_no_newServer_exit configPath configExpandEnv conf ev hev).2
  rcases cmdRun_cases c configPath configExpandEnv conf sched with
    ⟨err, h⟩ | ⟨h, conf2, err, hv⟩ | ⟨h, conf2, hv, ⟨err, hl⟩ | ⟨logger, hl, hr⟩⟩
  · rw [cmdRun_load_error c configPath configExpandEnv conf sched err h]
    refine Or.inl ⟨rfl, loadTrace configPath configExpandEnv conf ++
      [.printf ("load config: " ++ configPath ++ ": " ++ err ++ "\n")], by simp, ?_⟩
    intro ev hev
    rcases List.mem_append.mp hev with hev | hev
    · exact hlt ev hev
    · rw [List.mem_singleton.mp hev]
      rfl
  · rw [cmdRun_validate_error c configPath configExpandEnv conf sched conf2 err h hv]
    refine Or.inl ⟨rfl, loadTrace configPath configExpandEnv conf ++
      [.validate (confAfterLoad c configPath configExpandEnv conf),
        .printf ("invalid config: " ++ err ++ "\n")], by simp, ?_⟩
    intro ev hev
    rcases List.mem_append.mp hev with hev | hev
    · exact hlt ev hev
    · simp only [List.mem_cons, List.mem_singleton, List.not_mem_nil, or_false] at hev
      rcases hev with rfl | rfl <;> rfl
  · rw [cmdRun_logger_error c configPath configExpandEnv conf sched conf2 err h hv hl]
    refine Or.inl ⟨rfl, loadTrace configPath configExpandEnv conf ++
      [.validate (confAfterLoad c configPath configExpandEnv conf),
        .newLogger (c.logLevel conf2) (c.logSubsystems conf2),
        .printf ("failed to setup logger: " ++ err ++ "\n")], by simp, ?_⟩
    intro ev hev
    rcases List.mem_append.mp hev with hev | hev
    · exact hlt ev hev
    · simp only [List.mem_cons, List.mem_singleton, List.not_mem_nil, or_false] at hev
      rcases hev with rfl | rfl | rfl <;> rfl
  · obtain ⟨rest, hrest, hall⟩ := run_trace_shape c conf2 logger sched
    have hbody : ∀ ev ∈ loadTrace configPath configExpandEnv conf ++
        [Event.validate (confAfterLoad c configPath configExpandEnv conf),
          Event.newLogger (c.logLevel conf2) (c.logSubsystems conf2)] ++
        (run c conf2 logger sched).1, ev.isExit = false := by
      intro ev hev
      rw [hrest] at hev
      simp only [List.mem_append, List.mem_cons, List.mem_singleton, List.not_mem_nil,
        or_false] at hev
      rcases hev with (hev | rfl | rfl) | rfl | hev
      · exact hlt ev hev
      · rfl
      · rfl
      · rfl
      · exact (hall ev hev).2.2
    rcases hr with ⟨err, hr⟩ | hr | hr
    · rw [cmdRun_run_error c configPath configExpandEnv conf sched conf2 logger err h hv hl hr]
      refine Or.inl ⟨rfl, loadTrace configPath configExpandEnv conf ++
        [Event.validate (confAfterLoad c configPath configExpandEnv conf),
          Event.newLogger (c.logLevel conf2) (c.logSubsystems conf2)] ++
        (run c conf2 logger sched).1 ++ [.loggerError logger "failed to run server" err],
        by simp, ?_⟩
      intro ev hev
      rcases List.mem_append.mp hev with hev | hev
      · exact hbody ev hev
      · rw [List.mem_singleton.mp hev]
        rfl
    · rw [cmdRun_run_nil c configPath configExpandEnv conf sched conf2 logger h hv hl hr]
      exact Or.inr ⟨Or.inl rfl, hbody⟩
    · rw [cmdRun_run_blocked c configPath configExpandEnv conf sched conf2 logger h hv hl hr]
      exact Or.inr ⟨Or.inr rfl, hbody⟩

theorem cmdRun_returned_iff {Config Logger Server : Type}
    (c : Collaborators Config Logger Server) (configPath : String) (configExpandEnv : Bool)
    (conf : Config) (sched : List Action) :
    (cmdRun c configPath configExpandEnv conf sched).2 = .returned ↔
      (loadError c configPath configExpandEnv conf = none ∧
        ∃ conf2 logger,
          c.validate (confAfterLoad c configPath configExpandEnv conf) = (conf2, none) ∧
          c.newLogger (c.logLevel conf2) (c.logSubsystems conf2) = .ok logger ∧
          (run c conf2 logger sched).2 = .returned none) := by
  constructor
  · intro hret
    rcases cmdRun_cases c configPath configExpandEnv conf sched with
      ⟨err, h⟩ | ⟨h, conf2, err, hv⟩ | ⟨h, conf2, hv, ⟨err, hl⟩ | ⟨logger, hl, hr⟩⟩
    · rw [cmdRun_load_error c configPath configExpandEnv conf sched err h] at hret
      simp at hret
    · rw [cmdRun_validate_error c configPath configExpandEnv conf sched conf2 err h hv] at hret
      simp at hret
    · rw [cmdRun_logger_error c configPath configExpandEnv conf sched conf2 err h hv hl] at hret
      simp at hret
    · rcases hr with ⟨err, hr⟩ | hr | hr
      · rw [cmdRun_run_error c configPath configExpandEnv conf sched conf2 logger err h hv hl
          hr] at hret
        simp at hret
      · exact ⟨h, conf2, logger, hv, hl, hr⟩
      · rw [cmdRun_run_blocked c configPath configExpandEnv conf sched conf2 logger h hv hl
          hr] at hret
        simp at hret
  · rintro ⟨h, conf2, logger, hv, hl, hr⟩
    rw [cmdRun_run_nil c configPath configExpandEnv conf sched conf2 logger h hv hl hr]

/-- C8: every failure path of the handler ends the process with `os.Exit(1)` and runs no
later step: an error of `pikoconfig.Load` (only possible when a path is given), of
`conf.Validate`, of `log.NewLogger`, or a non-nil error of `run` each give a trace that
stops at `exit 1` right after the failing step's message; whenever the process exits the
status is 1 and `os.Exit` is the last and only exit event; the handler returns normally
exactly when all the steps succeed and `run` returns nil, and then `os.Exit` is not
called. -/
theorem handler_failure_paths_exit_one {Config Logger Server : Type}
    (c : Collaborators Config Logger Server) (configPath : String) (configExpandEnv : Bool)
    (conf : Config) (sched : List Action) :
    (∀ err, loadError c configPath configExpandEnv conf = some err →
      configPath ≠ "" ∧
      cmdRun c configPath configExpandEnv conf sched =
        ([.load configPath conf configExpandEnv,
          .printf ("load config: " ++ configPath ++ ": " ++ err ++ "\n"), .exit 1],
          .exited 1)) ∧
    (∀ conf2 err, loadError c configPath configExpandEnv conf = none →
      c.validate (confAfterLoad c configPath configExpandEnv conf) = (conf2, some err) →
      cmdRun c configPath configExpandEnv conf sched =
        (loadTrace configPath configExpandEnv conf ++
          [.validate (confAfterLoad c configPath configExpandEnv conf),
            .printf ("invalid config: " ++ err ++ "\n"), .exit 1],
          .exited 1)) ∧
    (∀ conf2 err, loadError c configPath configExpandEnv conf = none →
      c.validate (confAfterLoad c configPath configExpandEnv conf) = (conf2, none) →
      c.newLogger (c.logLevel conf2) (c.logSubsystems conf2) = .error err →
      cmdRun c configPath configExpandEnv conf sched =
        (loadTrace configPath configExpandEnv conf ++
          [.validate (confAfterLoad c configPath configExpandEnv conf),
            .newLogger (c.logLevel conf2) (c.logSubsystems conf2),
            .printf ("failed to setup logger: " ++ err ++ "\n"), .exit 1],
          .exited 1)) ∧
    (∀ conf2 logger err, loadError c configPath configExpandEnv conf = none →
      c.validate (confAfterLoad c configPath configExpandEnv conf) = (conf2, none) →
      c.newLogger (c.logLevel conf2) (c.logSubsystems conf2) = .ok logger →
      (run c conf2 logger sched).2 = .returned (some err) →
      cmdRun c configPath configExpandEnv conf sched =
        (loadTrace configPath configExpandEnv conf ++
          [.validate (confAfterLoad c configPath configExpandEnv conf),
            .newLogger (c.logLevel conf2) (c.logSubsystems conf2)] ++
          (run c conf2 logger sched).1 ++
          [.loggerError logger "failed to run server" err, .exit 1],
          .exited 1)) ∧
    (∀ code, (cmdRun c configPath configExpandEnv conf sched).2 = .exited code →
      code = 1 ∧
      ∃ pre : List (Event Config Logger Server),
        (cmdRun c configPath configExpandEnv conf sched).1 = pre ++ [.exit 1] ∧
        ∀ ev ∈ pre, ev.isExit = false) ∧
    ((cmdRun c configPath configExpandEnv conf sched).2 = .returned ↔
      (loadError c configPath configExpandEnv conf = none ∧
        ∃ conf2 logger,
          c.validate (confAfterLoad c configPath configExpandEnv conf) = (conf2, none) ∧
          c.newLogger (c.logLevel conf2) (c.logSubsystems conf2) = .ok logger ∧
          (run c conf2 logger sched).2 = .returned none)) ∧
    ((cmdRun c configPath configExpandEnv conf sched).2 = .returned →
      ∀ ev ∈ (cmdRun c configPath configExpandEnv conf sched).1, ev.isExit = false) := by
  refine ⟨?_, ?_, ?_, ?_, ?_, cmdRun_returned_iff c configPath configExpandEnv conf sched, ?_⟩
  · intro err h
    have hp : configPath ≠ "" := by
      intro hp
      simp [loadError, hp] at h
    refine ⟨hp, ?_⟩
    rw [cmdRun_load_error c configPath configExpandEnv conf sched err h]
    simp [loadTrace, hp]
  · intro conf2 err h hv
    exact cmdRun_validate_error c configPath configExpandEnv conf sched conf2 err h hv
  · intro conf2 err h hv hl
    exact cmdRun_logger_error c configPath configExpandEnv conf sched conf2 err h hv hl
  · intro conf2 logger err h hv hl hr
    exact cmdRun_run_error c configPath configExpandEnv conf sched conf2 logger err h hv hl hr
  · intro code hcode
    rcases cmdRun_exit_shape c configPath configExpandEnv conf sched with
      ⟨hex, hshape⟩ | ⟨hret | hblk, _⟩
    · rw [hex] at hcode
      simp only [Outcome.exited.injEq] at hcode
      exact ⟨hcode.symm, hshape⟩
    · rw [hret] at hcode
      simp at hcode
    · rw [hblk] at hcode
      simp at hcode
  · intro hret
    rcases cmdRun_exit_shape c configPath configExpandEnv conf sched with
      ⟨hex, _⟩ | ⟨_, hno⟩
    · rw [hex] at hret
      simp at hret
    · exact hno

/-- Witness for C8: a config that fails validation stops the handler at `exit 1`, before
the logger is built. -/
theorem handler_failure_paths_exit_one_witness :
    loadError demoInvalid "" false 0 = none ∧
      demoInvalid.validate (confAfterLoad demoInvalid "" false 0) =
        (0, some "missing bind address") ∧
      cmdRun demoInvalid "" false 0 gracefulStop =
        (loadTrace "" false 0 ++
          [.validate (confAfterLoad demoInvalid "" false 0),
            .printf ("invalid config: " ++ "missing bind address" ++ "\n"), .exit 1],
          .exited 1) :=
  ⟨rfl, rfl,
    (handler_failure_paths_exit_one demoInvalid "" false 0 gracefulStop).2.1 0
      "missing bind address" rfl rfl⟩

/-! ## The claims about the routing core -/

theorem applyDelta_same {t : EndpointTable} {claim : Endpoint}
    (h : ∀ cur, t claim.id = some cur → cur.incarnation < claim.incarnation) :
    applyDelta t claim = fun k => if k = claim.id then some claim else t k := by
  unfold applyDelta
  cases hcur : t claim.id with
  | none => rfl
  | some cur => simp [h cur hcur]

theorem applyDelta_stale {t : EndpointTable} {claim cur : Endpoint}
    (hcur : t claim.id = some cur) (h : claim.incarnation ≤ cur.incarnation) :
    applyDelta t claim = t := by
  unfold applyDelta
  simp [hcur, Nat.not_lt.mpr h]

/-- C5, as stated, fails: the table already holds a newer claim of `svc-a` (incarnation
9); after applying the two conflicting claims (incarnations 1 and 2) in either order the
entry is still the newer one, not the greater of the two claims. -/
theorem applyDelta_newer_entry_stays :
    claimLow.id = claimHigh.id ∧ claimLow.incarnation < claimHigh.incarnation ∧
      applyDelta (applyDelta tableWithNewerClaim claimLow) claimHigh claimHigh.id ≠
        some claimHigh ∧
      applyDelta (applyDelta tableWithNewerClaim claimHigh) claimLow claimHigh.id ≠
        some claimHigh := by
  decide

/-- C5, amended: for two conflicting claims of the same endpoint id, `hi` with the strictly
greater incarnation, applying both to a node's table gives the same table in either
order; when the table's entry for that id, if any, has a lower incarnation than `hi`,
that table's entry for the id is `hi`; and a claim with a lower incarnation than the
table's entry never replaces it. -/
theorem applyDelta_conflict_resolution (t : EndpointTable) (lo hi : Endpoint)
    (hid : lo.id = hi.id) (hinc : lo.incarnation < hi.incarnation) :
    applyDelta (applyDelta t lo) hi = applyDelta (applyDelta t hi) lo ∧
      ((∀ cur, t hi.id = some cur → cur.incarnation < hi.incarnation) →
        applyDelta (applyDelta t lo) hi hi.id = some hi ∧
        applyDelta (applyDelta t hi) lo hi.id = some hi) ∧
      (∀ (t' : EndpointTable) (cur claim : Endpoint), t' claim.id = some cur →
        claim.incarnation < cur.incarnation → applyDelta t' claim = t') := by
  have hfresh : (∀ cur, t hi.id = some cur → cur.incarnation < hi.incarnation) →
      applyDelta (applyDelta t lo) hi = applyDelta t hi ∧
      applyDelta (applyDelta t hi) lo = applyDelta t hi ∧
      applyDelta t hi hi.id = some hi := by
    intro hold
    have hhi : applyDelta t hi = fun k => if k = hi.id then some hi else t k :=
      applyDelta_same hold
    have hhi_lo : applyDelta (applyDelta t hi) lo = applyDelta t hi := by
      apply @applyDelta_stale _ _ hi
      · rw [hhi, hid]
        simp
      · exact Nat.le_of_lt hinc
    have hlo_hi : applyDelta (applyDelta t lo) hi =
        fun k => if k = hi.id then some hi else applyDelta t lo k := by
      apply applyDelta_same
      intro cur hcur
      unfold applyDelta at hcur
      rw [hid] at hcur
      cases ht : t hi.id with
      | none =>
        simp [ht] at hcur
        rw [← hcur]
        exact hinc
      | some cur0 =>
        simp only [ht] at hcur
        split at hcur
        · simp at hcur
          rw [← hcur]
          exact hinc
        · rw [ht] at hcur
          simp only [Option.some.injEq] at hcur
          rw [← hcur]
          exact hold cur0 ht
    have heq : applyDelta (applyDelta t lo) hi = applyDelta t hi := by
      rw [hlo_hi, hhi]
      funext k
      by_cases hk : k = hi.id
      · simp [hk]
      · simp only [if_neg hk]
        unfold applyDelta
        rw [hid]
        cases ht : t hi.id with
        | none => simp [hk]
        | some cur0 =>
          simp only
          split
          · simp [hk]
          · rfl
    exact ⟨heq, hhi_lo, by rw [hhi]; simp⟩
  refine ⟨?_, ?_, ?_⟩
  · by_cases hold : ∀ cur, t hi.id = some cur → cur.incarnation < hi.incarnation
    · obtain ⟨h1, h2, _⟩ := hfresh hold
      rw [h1, h2]
    · simp only [not_forall] at hold
      obtain ⟨cur, hcur, hnot⟩ := hold
      have hge : hi.incarnation ≤ cur.incarnation := Nat.not_lt.mp hnot
      have h1 : applyDelta t lo = t :=
        @applyDelta_stale _ _ cur (by rw [hid]; exact hcur) (by omega)
      have h2 : applyDelta t hi = t := applyDelta_stale hcur hge
      rw [h1, h2, h1]
  · intro hold
    obtain ⟨h1, h2, h3⟩ := hfresh hold
    exact ⟨by rw [h1]; exact h3, by rw [h2]; exact h3⟩
  · intro t' cur claim hcur hlt
    exact applyDelta_stale hcur (Nat.le_of_lt hlt)

/-- Witness for C5 amended: the two claims applied to the empty table. -/
theorem applyDelta_conflict_resolution_witness :
    claimLow.id = claimHigh.id ∧ claimLow.incarnation < claimHigh.incarnation ∧
      (∀ cur, EndpointTable.empty claimHigh.id = some cur →
        cur.incarnation < claimHigh.incarnation) ∧
      applyDelta (applyDelta EndpointTable.empty claimLow) claimHigh claimHigh.id =
        some claimHigh ∧
      applyDelta (applyDelta EndpointTable.empty claimHigh) claimLow claimHigh.id =
        some claimHigh :=
  ⟨rfl, by decide, fun cur h => by simp [EndpointTable.empty] at h,
    ((applyDelta_conflict_resolution EndpointTable.empty claimLow claimHigh rfl
      (by decide)).2.1 (fun cur h => by simp [EndpointTable.empty] at h)).1,
    ((applyDelta_conflict_resolution EndpointTable.empty claimLow claimHigh rfl
      (by decide)).2.1 (fun cur h => by simp [EndpointTable.empty] at h)).2⟩

theorem lastAction_append (ops : List RegistryOp) (op : RegistryOp) (id : EndpointId) :
    lastAction (ops ++ [op]) id =
      if op.id = id then
        (match op with
          | .register _ conn => some conn
          | .deregister _ => none)
      else lastAction ops id := by
  unfold lastAction
  simp only [List.reverse_append, List.reverse_cons, List.reverse_nil, List.nil_append,
    List.singleton_append, List.find?_cons]
  by_cases h : op.id = id
  · simp only [h, beq_self_eq_true, if_true]
    cases op <;> rfl
  · have hb : (op.id == id) = false := by simpa using h
    simp only [hb, if_neg h]

/-- C6: for every sequence of register and deregister operations applied to the registry
of a node, and every endpoint id, `lookupLocal` gives the connection of the last register
for that id if the last operation on that id is a register, and absent if it is a
deregister or if the id was never registered; and deregistering an absent id leaves the
registry unchanged. -/
theorem lookupLocal_reflects_last_action (ops : List RegistryOp) (id : EndpointId) :
    lookupLocal (Registry.empty.applyAll ops) id = lastAction ops id ∧
      (∀ r : Registry, lookupLocal r id = none → deregisterLocal r id = r) := by
  constructor
  · induction ops using List.reverseRecOn with
    | nil => rfl
    | append_singleton ops op ih =>
      rw [lastAction_append]
      simp only [Registry.applyAll, List.foldl_append, List.foldl_cons, List.foldl_nil]
      simp only [Registry.applyAll] at ih
      cases op with
      | register k conn =>
        simp only [Registry.apply, registerLocal, lookupLocal, RegistryOp.id]
        by_cases h : k = id
        · simp [h]
        · have h2 : ¬ id = k := fun e => h e.symm
          simp only [if_neg h, if_neg h2]
          exact ih
      | deregister k =>
        simp only [Registry.apply, deregisterLocal, lookupLocal, RegistryOp.id]
        by_cases h : k = id
        · simp [h]
        · have h2 : ¬ id = k := fun e => h e.symm
          simp only [if_neg h, if_neg h2]
          exact ih
  · intro r hnone
    obtain ⟨conns, n⟩ := r
    simp only [lookupLocal] at hnone
    simp only [deregisterLocal, Registry.mk.injEq, and_true]
    funext k
    by_cases h : k = id
    · simp [h, hnone]
    · simp [h]

/-- Witness for C6: a register followed by a deregister of another, absent id. -/
theorem lookupLocal_reflects_last_action_witness :
    lookupLocal (Registry.empty.applyAll [.register "svc-a" 4]) "svc-b" = none ∧
      deregisterLocal (Registry.empty.applyAll [.register "svc-a" 4]) "svc-b" =
        Registry.empty.applyAll [.register "svc-a" 4] :=
  ⟨by decide,
    (lookupLocal_reflects_last_action [.register "svc-a" 4] "svc-b").2
      (Registry.empty.applyAll [.register "svc-a" 4]) (by decide)⟩

/-- C7: when the membership protocol of a node moves node `a` to `dead`, the resulting
local endpoint table holds no endpoint owned by `a`, every endpoint owned by another node
is unchanged, no entry is added, and the transition sends no message. -/
theorem markDead_removes_owned_endpoints (m : Membership) (a : NodeId) :
    (∀ id e, (markDead m a).1.table id = some e → e.owner ≠ a) ∧
      (∀ id e, m.table id = some e → e.owner ≠ a → (markDead m a).1.table id = some e) ∧
      (∀ id e, (markDead m a).1.table id = some e → m.table id = some e) ∧
      (∀ n, m.nodes a = some n →
        ((markDead m a).1.nodes a).map ClusterNode.status = some .dead) ∧
      (markDead m a).2 = [] := by
  refine ⟨?_, ?_, ?_, ?_, rfl⟩
  · intro id e h
    simp only [markDead, Option.filter_eq_some] at h
    simpa using h.2
  · intro id e h hne
    simp only [markDead, Option.filter_eq_some]
    exact ⟨h, by simpa using hne⟩
  · intro id e h
    simp only [markDead, Option.filter_eq_some] at h
    exact h.1
  · intro n hn
    simp [markDead, hn]

/-- Witness for C7: `node-1` dies; its endpoint `svc-a` goes, `svc-b` of `node-2` stays. -/
theorem markDead_removes_owned_endpoints_witness :
    demoMembership.table "svc-b" =
        some { id := "svc-b", owner := "node-2", incarnation := 1, lastHeartbeat := 0 } ∧
      (markDead demoMembership "node-1").1.table "svc-b" =
        some { id := "svc-b", owner := "node-2", incarnation := 1, lastHeartbeat := 0 } :=
  ⟨by decide,
    (markDead_removes_owned_endpoints demoMembership "node-1").2.1 "svc-b"
      { id := "svc-b", owner := "node-2", incarnation := 1, lastHeartbeat := 0 }
      (by decide) (by decide)⟩

end Piko
